import Mathlib

/-!
Verification of the `lhcli` Longhorn CLI against its specification.

This file gives a shallow embedding, in Lean 4, of the parts of the Go
source that the specification's claims are about:

* `pkg/utils/size.go` (`ParseSize`, `FormatSizeInGi`),
* `pkg/formatter/helpers.go` (`PadRight`, `PadLeft`) and
  `pkg/formatter/formatter.go` (`GetFormatter`, `GetFormatterWithHeaders`,
  JSON formatting, `PrintError`),
* `pkg/config/config.go` (`Load`, `SmartDefaultConfig`, `Config.GetContext`),
* `pkg/client/client.go`, `pkg/client/node.go` (the complete version that
  includes the per-disk scheduling operations), `pkg/client/settings.go`,
  and the DTO structs of `pkg/client/types.go`.

Go strings are modeled as Lean `String`s; where Go works with byte
lengths, the model uses the sum of the UTF-8 sizes of the characters,
which is exactly Go's `len` on a string.  Go's `int64` is modeled as
`Int` together with an explicit range clamp where a float-to-integer
conversion can overflow.  Floating-point computations in `size.go` are
modeled by exact rational arithmetic; on every input the theorems below
evaluate these computations at, the Go `float64` arithmetic is exact
(all intermediate values are integers below `2^53`, or such integers
divided by a power of two), so the rational model agrees with the
compiled code there.  Fallible Go functions returning `(T, error)` are
modeled as `Option`/`Except` values.
-/

/-! ## Go character and string primitives -/
/-- Character test for Go's regexp class `\d` (the ASCII digits,
code points 48 to 57). -/
def isGoDigit (c : Char) : Bool := 48 ≤ c.toNat && c.toNat ≤ 57

/-- Character test for Go's regexp class `\s`, i.e. `[\t\n\f\r ]`
(code points 9, 10, 12, 13 and 32). -/
def isGoSpace (c : Char) : Bool :=
  c.toNat = 32 || c.toNat = 9 || c.toNat = 10 || c.toNat = 12 || c.toNat = 13

/-- Model of Go's `unicode.ToUpper` on the characters this program feeds
it: ASCII lower-case letters (code points 97 to 122) are mapped to upper
case, everything else this code ever sees is fixed. -/
def goToUpperChar (c : Char) : Char :=
  if 97 ≤ c.toNat && c.toNat ≤ 122 then Char.ofNat (c.toNat - 32) else c

/-- Model of Go's `unicode.ToLower` on the characters this program feeds
it: ASCII upper-case letters (code points 65 to 90) are mapped to lower
case. -/
def goToLowerChar (c : Char) : Char :=
  if 65 ≤ c.toNat && c.toNat ≤ 90 then Char.ofNat (c.toNat + 32) else c

/-- Model of Go's `strings.TrimSpace` (drop leading and trailing
whitespace), acting on the character list of a string. -/
def goTrimSpace (cs : List Char) : List Char :=
  ((cs.dropWhile isGoSpace).reverse.dropWhile isGoSpace).reverse

/-- Model of Go's `strings.ToLower` restricted to ASCII case mapping. -/
def goToLowerStr (s : String) : String := ⟨s.data.map goToLowerChar⟩

/-- Model of Go's `strings.TrimSuffix`: remove `suf` from the end of `s`
if it is a suffix, otherwise return `s` unchanged. -/
def goTrimSuffix (s suf : String) : String :=
  if suf.data.isSuffixOf s.data then ⟨s.data.take (s.data.length - suf.data.length)⟩ else s

/-- Byte length of a Go string (`len(s)` in Go): the total UTF-8 size of
its characters. -/
def goStrLen (s : String) : ℕ := (s.data.map Char.utf8Size).sum

/-! ## pkg/formatter/helpers.go -/
namespace formatter

/-- Result of Go's `strings.Repeat(" ", k)`. -/
def spacesStr (k : ℕ) : String := ⟨List.replicate k ' '⟩

/-- Embedding of `PadRight` from `pkg/formatter/helpers.go`: if
`len(s) >= length` return `s`, else append `length - len(s)` spaces.
The width is an `Int` because Go's `int` is signed. -/
def PadRight (s : String) (length : Int) : String :=
  if (goStrLen s : Int) ≥ length then s else s ++ spacesStr (length - goStrLen s).toNat

/-- Embedding of `PadLeft` from `pkg/formatter/helpers.go`: if
`len(s) >= length` return `s`, else prepend `length - len(s)` spaces. -/
def PadLeft (s : String) (length : Int) : String :=
  if (goStrLen s : Int) ≥ length then s else spacesStr (length - goStrLen s).toNat ++ s

/-! ## pkg/formatter/formatter.go -/

/-- The formatters `GetFormatter`/`GetFormatterWithHeaders` can return.
`table` models a `TableFormatter` carrying the given headers (it is also
what the `wide` format produces); `json` models a `JSONFormatter` with
its pretty flag; `yaml` models a `YAMLFormatter`. -/
inductive Formatter where
  | table (headers : List String)
  | json (pretty : Bool)
  | yaml
deriving DecidableEq

/-- Embedding of `GetFormatter` from `pkg/formatter/formatter.go`: switch
on the lower-cased format string; the bare `table` case is an error
because headers are required. -/
def GetFormatter (format : String) : Except String Formatter :=
  let lf := goToLowerStr format
  if lf = "json" then .ok (.json true)
  else if lf = "yaml" then .ok .yaml
  else if lf = "table" then .error "table formatter requires headers to be specified"
  else .error ("unsupported format: " ++ format)

/-- Embedding of `GetFormatterWithHeaders` from
`pkg/formatter/formatter.go`: switch on the lower-cased format string,
with `table` and `wide` both producing a table formatter with the given
headers. -/
def GetFormatterWithHeaders (format : String) (headers : List String) : Except String Formatter :=
  let lf := goToLowerStr format
  if lf = "json" then .ok (.json true)
  else if lf = "yaml" then .ok .yaml
  else if lf = "table" ∨ lf = "wide" then .ok (.table headers)
  else .error ("unsupported format: " ++ format)

end formatter

/-! ## pkg/utils/size.go

`ParseSize` in Go matches the (upper-cased, trimmed) input against the
regular expression `^(\d+(?:\.\d+)?)\s*([KMGTPE]?I?B?)?$`, converts the
numeric group with `strconv.ParseFloat`, multiplies by the unit's
multiplier in `float64`, and converts the product to `int64`.  The model
below parses the same grammar and computes with exact rationals; on the
inputs the theorems evaluate it at, every `float64` value involved is an
integer below `2^53` (or such an integer divided by a power of two), so
the floating-point computation in Go is exact and agrees with the
rational model. -/
namespace utils

/-- The ASCII character of the decimal digit `d` (for `d < 10`). -/
def digitChar (d : ℕ) : Char := Char.ofNat (48 + d)

/-- Numeric value of a string of ASCII digits (most significant first),
as produced by Go's number parsing of the digit group. -/
def digitsVal (ds : List Char) : ℕ := ds.foldl (fun a c => 10 * a + (c.toNat - 48)) 0

/-- Fuelled helper for `natDigits`; the fuel only serves to make the
recursion structural. -/
def natDigitsAux (fuel : ℕ) (n : ℕ) : List Char :=
  match fuel with
  | 0 => []
  | fuel + 1 => if n < 10 then [digitChar n] else natDigitsAux fuel (n / 10) ++ [digitChar (n % 10)]

/-- Decimal digit string of a natural number, most significant digit
first, without leading zeros — the base-10 rendering Go's `%d` and
`strconv` produce for non-negative integers. -/
def natDigits (n : ℕ) : List Char := natDigitsAux (n + 1) n

/-- Decimal string of a natural number (Go's `fmt.Sprintf("%d", n)` for
non-negative `n`). -/
def natToString (n : ℕ) : String := ⟨natDigits n⟩

/-- Model of Go's conversion `int64(f)` applied to a `float64` holding
the exact rational value `q`: truncation toward zero when the result is
representable; for out-of-range values the Go specification makes the
result implementation-dependent, and the gc compiler on amd64/arm64
produces `math.MinInt64`, which the model adopts. -/
def goInt64OfFloat (q : ℚ) : Int :=
  if -(2 ^ 63) ≤ q.num.tdiv q.den ∧ q.num.tdiv q.den < 2 ^ 63 then q.num.tdiv q.den
  else -(2 ^ 63)

/-- Characters admitted by the regexp class `[KMGTPE]`. -/
def isMultChar (c : Char) : Bool :=
  c = 'K' || c = 'M' || c = 'G' || c = 'T' || c = 'P' || c = 'E'

/-- Whether a character list is matched in full by the optional unit
group `([KMGTPE]?I?B?)?` of `ParseSize`'s regular expression. -/
def unitShapeOk : List Char → Bool
  | [] => true
  | [c] => isMultChar c || c = 'I' || c = 'B'
  | [c1, c2] => (isMultChar c1 && (c2 = 'I' || c2 = 'B')) || (c1 = 'I' && c2 = 'B')
  | [c1, c2, c3] => isMultChar c1 && c2 = 'I' && c3 = 'B'
  | _ => false

/-- Model of `strings.TrimSuffix(unit, "B")` on the unit characters. -/
def dropSuffixB (cs : List Char) : List Char :=
  if cs.getLast? = some 'B' then cs.dropLast else cs

/-- The multiplier table of `ParseSize`'s `switch` statement (after the
trailing `B` has been trimmed); `none` is the `unknown unit` error. -/
def multiplierOf : List Char → Option ℚ
  | [] => some 1
  | ['K'] | ['K', 'I'] => some 1024
  | ['M'] | ['M', 'I'] => some (1024 * 1024)
  | ['G'] | ['G', 'I'] => some (1024 * 1024 * 1024)
  | ['T'] | ['T', 'I'] => some (1024 * 1024 * 1024 * 1024)
  | ['P'] | ['P', 'I'] => some (1024 * 1024 * 1024 * 1024 * 1024)
  | ['E'] | ['E', 'I'] => some (1024 * 1024 * 1024 * 1024 * 1024 * 1024)
  | _ => none

/-- Splitting of the optional fractional part `(?:\.\d+)?`: after the
integer digit group, a dot followed by at least one digit is consumed,
anything else leaves the remainder untouched. -/
def fracSplit : List Char → List Char × List Char
  | '.' :: rest =>
    if rest.takeWhile isGoDigit = [] then ([], '.' :: rest)
    else (rest.takeWhile isGoDigit, rest.dropWhile isGoDigit)
  | r => ([], r)

/-- Exact value of the matched number `\d+(?:\.\d+)?` — the value
`strconv.ParseFloat` returns, which is exact whenever the decimal value
is representable in `float64`. -/
def ratValue (ip fp : List Char) : ℚ :=
  (digitsVal ip : ℚ) + (digitsVal fp : ℚ) / (10 : ℚ) ^ fp.length

/-- Core of `ParseSize` after trimming and upper-casing: match the
regular expression `^(\d+(?:\.\d+)?)\s*([KMGTPE]?I?B?)?$`, then apply
the unit multiplier and convert to `int64`; `none` models every `error`
return. -/
def parseSizeCore (cs : List Char) : Option Int :=
  if cs.takeWhile isGoDigit = [] then none
  else
    if unitShapeOk ((fracSplit (cs.dropWhile isGoDigit)).2.dropWhile isGoSpace) then
      if (fracSplit (cs.dropWhile isGoDigit)).2.dropWhile isGoSpace = [] then
        some (goInt64OfFloat (ratValue (cs.takeWhile isGoDigit) (fracSplit (cs.dropWhile isGoDigit)).1))
      else
        match multiplierOf (dropSuffixB ((fracSplit (cs.dropWhile isGoDigit)).2.dropWhile isGoSpace)) with
        | some m =>
          some (goInt64OfFloat (ratValue (cs.takeWhile isGoDigit) (fracSplit (cs.dropWhile isGoDigit)).1 * m))
        | none => none
    else none

/-- Embedding of `ParseSize` from `pkg/utils/size.go`: empty and `"0"`
inputs short-circuit to `0`; otherwise the input is upper-cased,
trimmed and matched against the size grammar.  `none` models the
`(0, err)` error returns. -/
def ParseSize (s : String) : Option Int :=
  if s = "" ∨ s = "0" then some 0
  else parseSizeCore (goTrimSpace (s.data.map goToUpperChar))

/-- Round a rational to the nearest integer, ties to the even integer —
the rounding `fmt`'s `%.2f` applies to the (exact) value of a `float64`
at the second decimal place, after scaling by 100. -/
def roundHalfEven (x : ℚ) : Int :=
  if x - ⌊x⌋ < 1 / 2 then ⌊x⌋
  else if 1 / 2 < x - ⌊x⌋ then ⌊x⌋ + 1
  else if ⌊x⌋ % 2 = 0 then ⌊x⌋ else ⌊x⌋ + 1

/-- Character rendering of `fmt.Sprintf("%.2f", q)` for a `float64`
holding the exact rational `q`: sign, integer part, dot, two decimal
digits. -/
def fmt2f (q : ℚ) : List Char :=
  (if q < 0 then ['-'] else []) ++
    natDigits ((roundHalfEven (q * 100)).natAbs / 100) ++
    ['.', digitChar ((roundHalfEven (q * 100)).natAbs % 100 / 10),
      digitChar ((roundHalfEven (q * 100)).natAbs % 10)]

/-- Embedding of `FormatSizeInGi` from `pkg/utils/size.go`: divide the
byte count by `2^30` and format with two decimal places followed by
`Gi`. -/
def FormatSizeInGi (bytes : Int) : String :=
  ⟨fmt2f ((bytes : ℚ) / (1024 * 1024 * 1024)) ++ ['G', 'i']⟩

end utils

/-! ## pkg/config/config.go -/
namespace config

/-- Embedding of the `Auth` struct of `pkg/config/config.go`.  The Go
field `Type` is called `Typ` here because `Type` is reserved in Lean. -/
structure Auth where
  Typ : String
  Token : String
  Path : String
  Context : String
deriving DecidableEq

/-- Embedding of the `Context` struct of `pkg/config/config.go`: one
named Longhorn cluster context. -/
structure Context where
  Name : String
  Endpoint : String
  Namespace : String
  Auth : Auth
deriving DecidableEq

/-- Embedding of the `Defaults` struct of `pkg/config/config.go`. -/
structure Defaults where
  OutputFormat : String
  Confirmation : Bool
  Timeout : String
deriving DecidableEq

/-- Embedding of the `Config` struct of `pkg/config/config.go`. -/
structure Config where
  Contexts : List Context
  CurrentContext : String
  Defaults : Defaults
deriving DecidableEq

/-- The `for` loop of `Config.GetContext`: return the first context in
the list whose `Name` equals `name`. -/
def findContext : List Context → String → Option Context
  | [], _ => none
  | c :: rest, n => if c.Name = n then some c else findContext rest n

/-- Embedding of `Config.GetContext` from `pkg/config/config.go`: an
empty requested name falls back to `CurrentContext`; the first context
with the effective name is returned, and a missing context is an error.
The Go method only reads the receiver (the loop iterates over a copy of
each context), which the pure model reflects. -/
def Config.GetContext (c : Config) (name : String) : Except String Context :=
  let n := if name = "" then c.CurrentContext else name
  match findContext c.Contexts n with
  | some ctx => .ok ctx
  | none => .error ("context " ++ n ++ " not found")

/-- Outcome of reading a file, for the filesystem model of `Load`:
`os.ReadFile` yields the contents, a not-exist error, or some other
error. -/
inductive FileResult where
  | content (data : String)
  | notExist
  | otherError (msg : String)

/-- Environment model for `pkg/config`: the `KUBECONFIG` variable
(empty when unset, as `os.Getenv` reports), the result of
`os.UserHomeDir`, the filesystem, and the behavior of `yaml.Unmarshal`
into a `Config` (a third-party library, abstracted as a function from
file contents to a parse result). -/
structure OSEnv where
  kubeconfigEnv : String
  homeDir : Except String String
  readFile : String → FileResult
  yamlUnmarshal : String → Except String Config

/-- Embedding of `SmartDefaultConfig` from `pkg/config/config.go`: a
single `default` context in namespace `longhorn-system` with
`kubeconfig` auth whose path comes from `KUBECONFIG`, or from
`$HOME/.kube/config` when the variable is empty (and stays empty if the
home directory cannot be determined).  `filepath.Join` is modeled as
path concatenation, which agrees with Go for the non-empty, clean home
paths `os.UserHomeDir` produces. -/
def SmartDefaultConfig (env : OSEnv) : Config :=
  let kubeconfigPath :=
    if env.kubeconfigEnv ≠ "" then env.kubeconfigEnv
    else match env.homeDir with
      | .ok home => home ++ "/.kube/config"
      | .error _ => ""
  { Contexts := [{ Name := "default", Endpoint := "", Namespace := "longhorn-system",
                   Auth := { Typ := "kubeconfig", Token := "", Path := kubeconfigPath,
                             Context := "" } }],
    CurrentContext := "default",
    Defaults := { OutputFormat := "table", Confirmation := true, Timeout := "30s" } }

/-- Embedding of `Load` from `pkg/config/config.go`: an empty path is
resolved to `$HOME/.lhcli/config.yaml`; a missing file yields the smart
default configuration with no error; any other read error or a YAML
parse error is returned as an error. -/
def Load (env : OSEnv) (path : String) : Except String Config :=
  match (if path = "" then
           match env.homeDir with
           | .ok home => Except.ok (home ++ "/.lhcli/config.yaml")
           | .error e => Except.error e
         else Except.ok path : Except String String) with
  | .error e => .error e
  | .ok p =>
    match env.readFile p with
    | .notExist => .ok (SmartDefaultConfig env)
    | .otherError m => .error m
    | .content data => env.yamlUnmarshal data

end config

/-! ## JSON documents (`encoding/json`)

JSON values are modeled as trees.  Go object keys keep their order
(struct fields are marshaled in declaration order, maps in ascending key
order, so a Go map value corresponds to an association list in that
order); numbers in this API are integers, modeled as `Int`.  The JSON
text emitted for a tree and the parse of that text are inverse bijections
between documents and trees, so the model works with trees directly. -/
inductive Json where
  | null
  | bool (b : Bool)
  | num (n : Int)
  | str (s : String)
  | arr (elems : List Json)
  | obj (fields : List (String × Json))

/-! ## pkg/client/types.go — DTO structs

Go slices and maps distinguish `nil` from empty; the model keeps that
distinction with `Option` (`none` is Go `nil`), and Go maps appear as
association lists in the order `encoding/json` serializes them. -/
namespace client

/-- Embedding of the `Status` struct (a condition) of
`pkg/client/types.go`; the Go field `Type` is called `Typ` here. -/
structure Status where
  Typ : String
  Status : String
  LastProbeTime : String
  LastTransitionTime : String
  Reason : String
  Message : String
deriving Inhabited, DecidableEq

/-- Embedding of the `Disk` struct of `pkg/client/types.go`. -/
structure Disk where
  Path : String
  AllowScheduling : Bool
  EvictionRequested : Bool
  StorageMaximum : Int
  StorageAvailable : Int
  StorageReserved : Int
  StorageScheduled : Int
  DiskUUID : String
  DiskType : String
  Conditions : Option (List (String × Status))
  ScheduledReplica : Option (List (String × Int))
  Tags : Option (List String)
deriving Inhabited, DecidableEq

/-- Embedding of the `Node` struct of `pkg/client/types.go`. -/
structure Node where
  Name : String
  Namespace : String
  Address : String
  AllowScheduling : Bool
  EvictionRequested : Bool
  Conditions : Option (List (String × Status))
  Disks : Option (List (String × Disk))
  Region : String
  Zone : String
  Tags : Option (List String)
  EngineManagerCPURequest : Int
  ReplicaManagerCPURequest : Int
deriving Inhabited, DecidableEq

/-- Embedding of the `DiskUpdate` struct of `pkg/client/types.go`
(`*bool` fields become `Option Bool`). -/
structure DiskUpdate where
  Path : String
  AllowScheduling : Option Bool
  EvictionRequested : Option Bool
  StorageReserved : Int
  Tags : Option (List String)
deriving Inhabited, DecidableEq

/-- Embedding of the `NodeUpdate` struct of `pkg/client/types.go`. -/
structure NodeUpdate where
  AllowScheduling : Option Bool
  EvictionRequested : Option Bool
  Tags : Option (List String)
  Disks : Option (List (String × DiskUpdate))
deriving Inhabited, DecidableEq

/-- Embedding of the `SettingDefinition` struct of
`pkg/client/types.go`; the Go field `Type` is called `Typ` here. -/
structure SettingDefinition where
  Description : String
  Typ : String
  Required : Bool
  ReadOnly : Bool
  Default : String
  Options : Option (List String)
deriving Inhabited, DecidableEq

/-- Embedding of the `Setting` struct of `pkg/client/types.go`. -/
structure Setting where
  Name : String
  Value : String
  Default : String
  Definition : SettingDefinition
deriving Inhabited, DecidableEq

/-! ### Marshaling (Go `json.Marshal` per the struct tags) -/

/-- Marshal an optional string list: Go `nil` slices become `null`,
non-nil slices become arrays. -/
def optListJson (f : α → Json) : Option (List α) → Json
  | none => .null
  | some l => .arr (l.map f)

/-- Marshal an optional map (association list): Go `nil` maps become
`null`, non-nil maps become objects. -/
def optMapJson (f : α → Json) : Option (List (String × α)) → Json
  | none => .null
  | some l => .obj (l.map (fun p => (p.1, f p.2)))

/-- Marshaling of `Status` per its `json` tags. -/
def statusToJson (s : Status) : Json :=
  .obj [("type", .str s.Typ), ("status", .str s.Status),
        ("lastProbeTime", .str s.LastProbeTime),
        ("lastTransitionTime", .str s.LastTransitionTime),
        ("reason", .str s.Reason), ("message", .str s.Message)]

/-- Marshaling of `Disk` per its `json` tags. -/
def diskToJson (d : Disk) : Json :=
  .obj [("path", .str d.Path), ("allowScheduling", .bool d.AllowScheduling),
        ("evictionRequested", .bool d.EvictionRequested),
        ("storageMaximum", .num d.StorageMaximum),
        ("storageAvailable", .num d.StorageAvailable),
        ("storageReserved", .num d.StorageReserved),
        ("storageScheduled", .num d.StorageScheduled),
        ("diskUUID", .str d.DiskUUID), ("diskType", .str d.DiskType),
        ("conditions", optMapJson statusToJson d.Conditions),
        ("scheduledReplica", optMapJson Json.num d.ScheduledReplica),
        ("tags", optListJson Json.str d.Tags)]

/-- Marshaling of `Node` per its `json` tags; `namespace` carries
`omitempty` and is dropped when empty. -/
def nodeToJson (n : Node) : Json :=
  .obj ([("name", .str n.Name)] ++
        (if n.Namespace = "" then [] else [("namespace", .str n.Namespace)]) ++
        [("address", .str n.Address), ("allowScheduling", .bool n.AllowScheduling),
         ("evictionRequested", .bool n.EvictionRequested),
         ("conditions", optMapJson statusToJson n.Conditions),
         ("disks", optMapJson diskToJson n.Disks),
         ("region", .str n.Region), ("zone", .str n.Zone),
         ("tags", optListJson Json.str n.Tags),
         ("engineManagerCPURequest", .num n.EngineManagerCPURequest),
         ("replicaManagerCPURequest", .num n.ReplicaManagerCPURequest)])

/-- Marshaling of `SettingDefinition` per its `json` tags. -/
def settingDefinitionToJson (sd : SettingDefinition) : Json :=
  .obj [("description", .str sd.Description), ("type", .str sd.Typ),
        ("required", .bool sd.Required), ("readOnly", .bool sd.ReadOnly),
        ("default", .str sd.Default), ("options", optListJson Json.str sd.Options)]

/-- Marshaling of `Setting` per its `json` tags. -/
def settingToJson (s : Setting) : Json :=
  .obj [("name", .str s.Name), ("value", .str s.Value), ("default", .str s.Default),
        ("definition", settingDefinitionToJson s.Definition)]

/-- Marshaling of `DiskUpdate` per its `json` tags: `path` is always
present; the pointer fields carry `omitempty` and are dropped when
`nil`; `storageReserved` and `tags` carry `omitempty` and are dropped
when zero or of length zero. -/
def diskUpdateToJson (d : DiskUpdate) : Json :=
  .obj ([("path", .str d.Path)] ++
        (match d.AllowScheduling with
         | none => [] | some b => [("allowScheduling", .bool b)]) ++
        (match d.EvictionRequested with
         | none => [] | some b => [("evictionRequested", .bool b)]) ++
        (if d.StorageReserved = 0 then [] else [("storageReserved", .num d.StorageReserved)]) ++
        (match d.Tags with
         | none => [] | some [] => [] | some ts => [("tags", .arr (ts.map Json.str))]))

/-- Marshaling of `NodeUpdate` per its `json` tags: every field carries
`omitempty`, so `nil` pointers and empty slices and maps are dropped. -/
def nodeUpdateToJson (u : NodeUpdate) : Json :=
  .obj ((match u.AllowScheduling with
         | none => [] | some b => [("allowScheduling", .bool b)]) ++
        (match u.EvictionRequested with
         | none => [] | some b => [("evictionRequested", .bool b)]) ++
        (match u.Tags with
         | none => [] | some [] => [] | some ts => [("tags", .arr (ts.map Json.str))]) ++
        (match u.Disks with
         | none => [] | some [] => []
         | some ds => [("disks", .obj (ds.map (fun p => (p.1, diskUpdateToJson p.2))))]))

end client

/-! ### Unmarshaling (Go `json.Unmarshal` into the DTO structs)

Decoding follows `encoding/json`: a `null` document leaves the target
at its zero value; object keys are matched exactly first and then
ASCII-case-insensitively; missing keys leave the zero value; `null`
field values leave the zero value; a value of the wrong type is an
`UnmarshalTypeError` (decoding into the same field continues in Go but
the call still returns the error, and every caller in this repository
discards the value on error, so the model aborts at the first error). -/
namespace client

/-- ASCII-case-insensitive string equality, as Go's field matching
applies to the keys this API uses. -/
def eqFold (a b : String) : Bool := goToLowerStr a = goToLowerStr b

/-- Object-key lookup of `encoding/json`: an exact match is preferred,
otherwise a case-insensitive match is used. -/
def jLookup (fields : List (String × Json)) (key : String) : Option Json :=
  match fields.find? (fun p => p.1 = key) with
  | some p => some p.2
  | none =>
    match fields.find? (fun p => eqFold p.1 key) with
    | some p => some p.2
    | none => none

/-- Decode a JSON value into a Go `string`. -/
def decStrJson : Json → Except String String
  | .null => .ok ""
  | .str s => .ok s
  | _ => .error "cannot unmarshal into string"

/-- Decode a JSON value into a Go `bool`. -/
def decBoolJson : Json → Except String Bool
  | .null => .ok false
  | .bool b => .ok b
  | _ => .error "cannot unmarshal into bool"

/-- Decode a JSON value into a Go integer. -/
def decIntJson : Json → Except String Int
  | .null => .ok 0
  | .num n => .ok n
  | _ => .error "cannot unmarshal into int"

/-- Decode a JSON value into a Go slice (`null` stays `nil`). -/
def decOptListJson (g : Json → Except String α) : Json → Except String (Option (List α))
  | .null => .ok none
  | .arr es => (es.mapM g).map some
  | _ => .error "cannot unmarshal into slice"

/-- Decode one key-value pair of a JSON object into a Go map entry. -/
def decPairJson (g : Json → Except String α) (p : String × Json) :
    Except String (String × α) :=
  (g p.2).map (fun v => (p.1, v))

/-- Decode a JSON value into a Go map (`null` stays `nil`). -/
def decOptMapJson (g : Json → Except String α) :
    Json → Except String (Option (List (String × α)))
  | .null => .ok none
  | .obj fs => (fs.mapM (decPairJson g)).map some
  | _ => .error "cannot unmarshal into map"

/-- Decode the field `key` of an object, defaulting a missing key to the
zero value the given decoder assigns to `null`. -/
def decField (g : Json → Except String α) (fields : List (String × Json)) (key : String) :
    Except String α :=
  match jLookup fields key with
  | none => g .null
  | some v => g v

/-- Unmarshaling of `Status`. -/
def statusFromJson : Json → Except String Status
  | .null => .ok default
  | .obj fields => do
    let t ← decField decStrJson fields "type"
    let st ← decField decStrJson fields "status"
    let lp ← decField decStrJson fields "lastProbeTime"
    let lt ← decField decStrJson fields "lastTransitionTime"
    let r ← decField decStrJson fields "reason"
    let m ← decField decStrJson fields "message"
    return ⟨t, st, lp, lt, r, m⟩
  | _ => .error "cannot unmarshal into Status"

/-- Unmarshaling of `Disk`. -/
def diskFromJson : Json → Except String Disk
  | .null => .ok default
  | .obj fields => do
    let p ← decField decStrJson fields "path"
    let aS ← decField decBoolJson fields "allowScheduling"
    let eR ← decField decBoolJson fields "evictionRequested"
    let sM ← decField decIntJson fields "storageMaximum"
    let sA ← decField decIntJson fields "storageAvailable"
    let sR ← decField decIntJson fields "storageReserved"
    let sS ← decField decIntJson fields "storageScheduled"
    let dU ← decField decStrJson fields "diskUUID"
    let dT ← decField decStrJson fields "diskType"
    let conds ← decField (decOptMapJson statusFromJson) fields "conditions"
    let sched ← decField (decOptMapJson decIntJson) fields "scheduledReplica"
    let tags ← decField (decOptListJson decStrJson) fields "tags"
    return ⟨p, aS, eR, sM, sA, sR, sS, dU, dT, conds, sched, tags⟩
  | _ => .error "cannot unmarshal into Disk"

/-- Unmarshaling of `Node`. -/
def nodeFromJson : Json → Except String Node
  | .null => .ok default
  | .obj fields => do
    let nm ← decField decStrJson fields "name"
    let ns ← decField decStrJson fields "namespace"
    let ad ← decField decStrJson fields "address"
    let aS ← decField decBoolJson fields "allowScheduling"
    let eR ← decField decBoolJson fields "evictionRequested"
    let conds ← decField (decOptMapJson statusFromJson) fields "conditions"
    let disks ← decField (decOptMapJson diskFromJson) fields "disks"
    let rg ← decField decStrJson fields "region"
    let zn ← decField decStrJson fields "zone"
    let tags ← decField (decOptListJson decStrJson) fields "tags"
    let em ← decField decIntJson fields "engineManagerCPURequest"
    let rm ← decField decIntJson fields "replicaManagerCPURequest"
    return ⟨nm, ns, ad, aS, eR, conds, disks, rg, zn, tags, em, rm⟩
  | _ => .error "cannot unmarshal into Node"

/-- Unmarshaling of `SettingDefinition`. -/
def settingDefinitionFromJson : Json → Except String SettingDefinition
  | .null => .ok default
  | .obj fields => do
    let de ← decField decStrJson fields "description"
    let t ← decField decStrJson fields "type"
    let rq ← decField decBoolJson fields "required"
    let ro ← decField decBoolJson fields "readOnly"
    let df ← decField decStrJson fields "default"
    let op ← decField (decOptListJson decStrJson) fields "options"
    return ⟨de, t, rq, ro, df, op⟩
  | _ => .error "cannot unmarshal into SettingDefinition"

/-- Unmarshaling of `Setting`. -/
def settingFromJson : Json → Except String Setting
  | .null => .ok default
  | .obj fields => do
    let nm ← decField decStrJson fields "name"
    let v ← decField decStrJson fields "value"
    let df ← decField decStrJson fields "default"
    let defn ← decField settingDefinitionFromJson fields "definition"
    return ⟨nm, v, df, defn⟩
  | _ => .error "cannot unmarshal into Setting"

end client

/-! ## Claim C8: JSON encode-decode fidelity through `JSONFormatter.Format` -/
namespace formatter

/-- Embedding of the `JSONFormatter` struct of
`pkg/formatter/formatter.go` (the writer is abstracted away). -/
structure JSONFormatter where
  pretty : Bool

/-- The JSON document `JSONFormatter.Format` emits for a value whose
`encoding/json` tree is `data`: `Format` passes the value to
`json.Encoder.Encode`, optionally with indentation; indentation only
changes insignificant whitespace of the emitted text, so the document
is the tree itself. -/
def JSONFormatter.formatOutput (_ : JSONFormatter) (data : Json) : Json := data

end formatter

/-! ## pkg/client/client.go — the HTTP client and its operations

The transport is modeled by an oracle that answers the `k`-th HTTP
request of an invocation either with a transport failure (the non-nil
`error` of `http.Client.Do`) or with a status code and a response body.
Every operation returns its Go result together with the list of
requests it issued, in order.  Go `error` values built by `fmt.Errorf`
are modeled by `GoError`: `%w`-wrapping keeps the wrapped error as
`inner`. -/
namespace client

/-- Go `error` values as this package builds them: leaf messages and
`fmt.Errorf("context: %w", err)` wrappings. -/
inductive GoError where
  | base (msg : String)
  | wrap (ctx : String) (inner : GoError)
deriving DecidableEq

/-- The string `err.Error()` produces: `fmt.Errorf` with `%w` renders
the context, a colon and a space, then the wrapped error. -/
def GoError.render : GoError → String
  | .base m => m
  | .wrap c e => c ++ ": " ++ e.render

/-- Decimal rendering of a Go integer (`%d`, and the JSON number
syntax). -/
def intToString (i : Int) : String :=
  if i < 0 then "-" ++ utils.natToString i.natAbs else utils.natToString i.natAbs

/-- Backslash-and-quote escaping of a JSON string literal's contents.
The response bodies the theorems evaluate contain no control characters
and none of the characters `encoding/json` HTML-escapes, so this agrees
with Go's rendering there. -/
def jsonEscape (s : String) : String :=
  ⟨s.data.foldr (fun ch acc =>
    if ch = '\\' then '\\' :: '\\' :: acc
    else if ch = '"' then '\\' :: '"' :: acc
    else ch :: acc) []⟩

mutual

/-- Compact JSON text of a document — the bytes a server response body
holds for it, as read by `io.ReadAll` and interpolated into error
messages with `string(body)`. -/
def jsonRender : Json → String
  | .null => "null"
  | .bool true => "true"
  | .bool false => "false"
  | .num n => intToString n
  | .str s => "\"" ++ jsonEscape s ++ "\""
  | .arr es => "[" ++ String.intercalate "," (jsonRenderList es) ++ "]"
  | .obj fs => "\x7b" ++ String.intercalate "," (jsonRenderPairs fs) ++ "\x7d"

/-- Renderings of the elements of a JSON array. -/
def jsonRenderList : List Json → List String
  | [] => []
  | j :: t => jsonRender j :: jsonRenderList t

/-- Renderings of the fields of a JSON object. -/
def jsonRenderPairs : List (String × Json) → List String
  | [] => []
  | p :: t => ("\"" ++ jsonEscape p.1 ++ "\":" ++ jsonRender p.2) :: jsonRenderPairs t

end

/-- Embedding of the client `Config` struct of `pkg/client/client.go`
(`Timeout` is a `time.Duration`, an `int64` of nanoseconds). -/
structure Config where
  Endpoint : String
  Namespace : String
  Token : String
  Timeout : Int
  Insecure : Bool
deriving DecidableEq

/-- Embedding of the `Client` struct of `pkg/client/client.go`:
`httpTimeout` is the `Timeout` field of the `http.Client` built by
`NewClient`, and `baseURL` the base URL every request is resolved
against. -/
structure Client where
  config : Config
  httpTimeout : Int
  baseURL : String
deriving DecidableEq

/-- Embedding of `NewClient` from `pkg/client/client.go`: an empty
endpoint is an error; otherwise one trailing slash is trimmed, the HTTP
client gets the configured fixed timeout, and the base URL is the
endpoint followed by `/v1`. -/
def NewClient (config : Config) : Except GoError Client :=
  if config.Endpoint = "" then .error (.base "endpoint is required")
  else
    let endpoint := goTrimSuffix config.Endpoint "/"
    .ok { config := { config with Endpoint := endpoint },
          httpTimeout := config.Timeout,
          baseURL := endpoint ++ "/v1" }

/-- One HTTP request as `doRequest` issues it: method, absolute URL,
and the JSON-marshaled body (if any). -/
structure Request where
  method : String
  url : String
  body : Option Json

/-- Answer of the remote manager to one request: a transport failure
(`http.Client.Do` returns a non-nil error) or a response with a status
code and a body. -/
inductive TransportResult where
  | fail (msg : String)
  | resp (status : Int) (body : Json)

/-- The remote side of an invocation: the answer to the `k`-th request
issued. -/
def Oracle : Type := ℕ → TransportResult

/-- Embedding of `doRequest` from `pkg/client/client.go`: build the
request against `baseURL ++ path`, issue it, and wrap a transport
failure as `request failed: %w`.  Marshaling of the body cannot fail
for the payloads this package sends, and header handling does not
affect the modeled behavior. -/
def doRequest (c : Client) (o : Oracle) (k : ℕ) (method path : String) (body : Option Json) :
    Except GoError (Int × Json) × Request :=
  ((match o k with
    | .fail m => .error (.wrap "request failed" (.base m))
    | .resp st b => .ok (st, b)),
   { method := method, url := c.baseURL ++ path, body := body })

/-- Decoder for the anonymous response struct `struct{ Data []Node }`
of `nodeClient.List`. -/
def nodeListFromJson : Json → Except String (Option (List Node))
  | .null => .ok none
  | .obj fields => decField (decOptListJson nodeFromJson) fields "data"
  | _ => .error "cannot unmarshal into node list response"

/-- Decoder for the anonymous response struct `struct{ Data []Setting }`
of `settingsClient.List`. -/
def settingListFromJson : Json → Except String (Option (List Setting))
  | .null => .ok none
  | .obj fields => decField (decOptListJson settingFromJson) fields "data"
  | _ => .error "cannot unmarshal into setting list response"

/-- Embedding of `nodeClient.List` (`pkg/client/node.go`). -/
def nodeList (c : Client) (o : Oracle) :
    Except GoError (Option (List Node)) × List Request :=
  let d := doRequest c o 0 "GET" "/nodes" none
  (match d.1 with
   | .error e => .error e
   | .ok (st, body) =>
     if st ≠ 200 then .error (.base ("unexpected status code: " ++ intToString st))
     else
       match nodeListFromJson body with
       | .ok items => .ok items
       | .error m => .error (.wrap "failed to decode response" (.base m)),
   [d.2])

/-- Embedding of `nodeClient.Get` (`pkg/client/node.go`); `k` is the
number of requests the invocation has already issued. -/
def nodeGet (c : Client) (o : Oracle) (k : ℕ) (name : String) :
    Except GoError Node × List Request :=
  let d := doRequest c o k "GET" ("/nodes/" ++ name) none
  (match d.1 with
   | .error e => .error e
   | .ok (st, body) =>
     if st = 404 then .error (.base ("node " ++ name ++ " not found"))
     else if st ≠ 200 then .error (.base ("unexpected status code: " ++ intToString st))
     else
       match nodeFromJson body with
       | .ok node => .ok node
       | .error m => .error (.wrap "failed to decode response" (.base m)),
   [d.2])

/-- Embedding of `nodeClient.Update` (`pkg/client/node.go`). -/
def nodeUpdate (c : Client) (o : Oracle) (k : ℕ) (name : String) (update : NodeUpdate) :
    Except GoError Node × List Request :=
  let d := doRequest c o k "PUT" ("/nodes/" ++ name) (some (nodeUpdateToJson update))
  (match d.1 with
   | .error e => .error e
   | .ok (st, body) =>
     if st ≠ 200 then .error (.base ("failed to update node: " ++ jsonRender body))
     else
       match nodeFromJson body with
       | .ok node => .ok node
       | .error m => .error (.wrap "failed to decode response" (.base m)),
   [d.2])

/-- Discard the value of a result, as the Go operations that end with
`_, err := ...; return err` do. -/
def toUnit (r : Except GoError α) : Except GoError Unit := r.map (fun _ => ())

/-- Embedding of `nodeClient.EnableScheduling`. -/
def enableScheduling (c : Client) (o : Oracle) (name : String) :
    Except GoError Unit × List Request :=
  let r := nodeUpdate c o 0 name
    { AllowScheduling := some true, EvictionRequested := none, Tags := none, Disks := none }
  (toUnit r.1, r.2)

/-- Embedding of `nodeClient.DisableScheduling`. -/
def disableScheduling (c : Client) (o : Oracle) (name : String) :
    Except GoError Unit × List Request :=
  let r := nodeUpdate c o 0 name
    { AllowScheduling := some false, EvictionRequested := none, Tags := none, Disks := none }
  (toUnit r.1, r.2)

/-- Embedding of `nodeClient.EvictNode`. -/
def evictNode (c : Client) (o : Oracle) (name : String) :
    Except GoError Unit × List Request :=
  let r := nodeUpdate c o 0 name
    { AllowScheduling := none, EvictionRequested := some true, Tags := none, Disks := none }
  (toUnit r.1, r.2)

/-- Embedding of `sanitizeDiskPath` (`pkg/client/node.go`): drop one
leading slash, then replace every remaining slash with a dash. -/
def sanitizeDiskPath (path : String) : String :=
  let s := match path.data with
    | '/' :: rest => rest
    | l => l
  ⟨s.map (fun ch => if ch = '/' then '-' else ch)⟩

/-- Embedding of `nodeClient.AddDisk` (`pkg/client/node.go`): read the
node, refuse an existing disk ID, then `POST` the new disk (the
`map[string]interface{}` payload is marshaled with its keys in sorted
order). -/
def addDisk (c : Client) (o : Oracle) (nodeName : String) (disk : DiskUpdate) :
    Except GoError Unit × List Request :=
  let g := nodeGet c o 0 nodeName
  match g.1 with
  | .error e => (.error (.wrap "failed to get node" e), g.2)
  | .ok node =>
    let diskID := "disk-" ++ sanitizeDiskPath disk.Path
    if (node.Disks.getD []).any (fun p => p.1 = diskID) then
      (.error (.base ("disk with path " ++ disk.Path ++ " already exists")), g.2)
    else
      let d := doRequest c o g.2.length "POST" ("/nodes/" ++ nodeName ++ "/disks")
        (some (.obj [("allowScheduling", .bool true), ("path", .str disk.Path),
                     ("storageReserved", .num disk.StorageReserved),
                     ("tags", optListJson Json.str disk.Tags)]))
      (match d.1 with
       | .error e => .error (.wrap "failed to add disk" e)
       | .ok (st, body) =>
         if st = 200 ∨ st = 201 then .ok ()
         else .error (.base ("failed to add disk: " ++ jsonRender body)),
       g.2 ++ [d.2])

/-- Embedding of `nodeClient.RemoveDisk` (`pkg/client/node.go`): one
`DELETE` of the disk resource. -/
def removeDisk (c : Client) (o : Oracle) (nodeName diskID : String) :
    Except GoError Unit × List Request :=
  let d := doRequest c o 0 "DELETE" ("/nodes/" ++ nodeName ++ "/disks/" ++ diskID) none
  (match d.1 with
   | .error e => .error (.wrap "failed to remove disk" e)
   | .ok (st, body) =>
     if st = 200 ∨ st = 204 then .ok ()
     else .error (.base ("failed to remove disk: " ++ jsonRender body)),
   [d.2])

/-- Embedding of `nodeClient.UpdateDiskTags` (`pkg/client/node.go`):
one `PATCH` of the disk resource with a `tags` payload. -/
def updateDiskTags (c : Client) (o : Oracle) (nodeName diskID : String)
    (tags : Option (List String)) : Except GoError Unit × List Request :=
  let d := doRequest c o 0 "PATCH" ("/nodes/" ++ nodeName ++ "/disks/" ++ diskID)
    (some (.obj [("tags", optListJson Json.str tags)]))
  (match d.1 with
   | .error e => .error (.wrap "failed to update disk tags" e)
   | .ok (st, body) =>
     if st ≠ 200 then .error (.base ("failed to update disk tags: " ++ jsonRender body))
     else .ok (),
   [d.2])

/-- Embedding of `nodeClient.updateDiskSchedulingViaNode`
(`pkg/client/node.go`): read the node, flip the disk's scheduling flag,
and `PUT` the whole node with a payload carrying all disks (each disk's
`map[string]interface{}` is marshaled with its keys in sorted order). -/
def updateDiskSchedulingViaNode (c : Client) (o : Oracle) (k : ℕ)
    (nodeName diskID : String) (allowScheduling : Bool) :
    Except GoError Unit × List Request :=
  let g := nodeGet c o k nodeName
  match g.1 with
  | .error e => (.error (.wrap "failed to get node" e), g.2)
  | .ok node =>
    match (node.Disks.getD []).find? (fun p => p.1 = diskID) with
    | none => (.error (.base ("disk " ++ diskID ++ " not found on node " ++ nodeName)), g.2)
    | some _ =>
      let updatedDisks := (node.Disks.getD []).map (fun p =>
        if p.1 = diskID then (p.1, { p.2 with AllowScheduling := allowScheduling }) else p)
      let payload : Json := .obj [("disks", .obj (updatedDisks.map (fun p =>
        (p.1, .obj [("allowScheduling", .bool p.2.AllowScheduling),
                    ("path", .str p.2.Path),
                    ("storageReserved", .num p.2.StorageReserved),
                    ("tags", optListJson Json.str p.2.Tags)]))))]
      let d := doRequest c o (k + 1) "PUT" ("/nodes/" ++ nodeName) (some payload)
      (match d.1 with
       | .error e => .error (.wrap "failed to update node" e)
       | .ok (st, body) =>
         if st ≠ 200 then
           .error (.base ("failed to update disk scheduling: " ++ jsonRender body))
         else .ok (),
       g.2 ++ [d.2])

/-- Embedding of `nodeClient.updateDiskScheduling`
(`pkg/client/node.go`): try a `PATCH` of the disk resource first, and
fall back to updating the whole node when the API answers 405 or 404. -/
def updateDiskScheduling (c : Client) (o : Oracle) (nodeName diskID : String)
    (allowScheduling : Bool) : Except GoError Unit × List Request :=
  let d := doRequest c o 0 "PATCH" ("/nodes/" ++ nodeName ++ "/disks/" ++ diskID)
    (some (.obj [("allowScheduling", .bool allowScheduling)]))
  match d.1 with
  | .error e => (.error (.wrap "failed to update disk" e), [d.2])
  | .ok (st, body) =>
    if st = 405 ∨ st = 404 then
      let r := updateDiskSchedulingViaNode c o 1 nodeName diskID allowScheduling
      (r.1, d.2 :: r.2)
    else if st ≠ 200 then
      (.error (.base ("failed to update disk scheduling: " ++ jsonRender body)), [d.2])
    else (.ok (), [d.2])

/-- Embedding of `nodeClient.EnableDiskScheduling`. -/
def enableDiskScheduling (c : Client) (o : Oracle) (nodeName diskID : String) :
    Except GoError Unit × List Request :=
  updateDiskScheduling c o nodeName diskID true

/-- Embedding of `nodeClient.DisableDiskScheduling`. -/
def disableDiskScheduling (c : Client) (o : Oracle) (nodeName diskID : String) :
    Except GoError Unit × List Request :=
  updateDiskScheduling c o nodeName diskID false

/-- Embedding of `nodeClient.AddNodeTag` (`pkg/client/node.go`): read
the node; if the tag is already present return `nil` without a further
request, otherwise `PUT` the node with the tag appended once. -/
def addNodeTag (c : Client) (o : Oracle) (nodeName tag : String) :
    Except GoError Unit × List Request :=
  let g := nodeGet c o 0 nodeName
  match g.1 with
  | .error e => (.error e, g.2)
  | .ok node =>
    if tag ∈ node.Tags.getD [] then (.ok (), g.2)
    else
      let r := nodeUpdate c o g.2.length nodeName
        { AllowScheduling := none, EvictionRequested := none,
          Tags := some (node.Tags.getD [] ++ [tag]), Disks := none }
      (toUnit r.1, g.2 ++ r.2)

/-- Embedding of `nodeClient.RemoveNodeTag` (`pkg/client/node.go`):
read the node, filter the tag out (the filtered Go slice stays `nil`
when nothing is kept), and `PUT` the node. -/
def removeNodeTag (c : Client) (o : Oracle) (nodeName tag : String) :
    Except GoError Unit × List Request :=
  let g := nodeGet c o 0 nodeName
  match g.1 with
  | .error e => (.error e, g.2)
  | .ok node =>
    let filtered := (node.Tags.getD []).filter (fun x => x ≠ tag)
    let r := nodeUpdate c o g.2.length nodeName
      { AllowScheduling := none, EvictionRequested := none,
        Tags := if filtered = [] then none else some filtered, Disks := none }
    (toUnit r.1, g.2 ++ r.2)

/-- Insertion into the `map[string]Setting` that `settingsClient.List`
builds (`out[s.Name] = s` overwrites an existing key). -/
def upsertSetting (m : List (String × Setting)) (s : Setting) : List (String × Setting) :=
  if m.any (fun p => p.1 = s.Name) then
    m.map (fun p => if p.1 = s.Name then (s.Name, s) else p)
  else m ++ [(s.Name, s)]

/-- Embedding of `settingsClient.List` (`pkg/client/settings.go`). -/
def settingsList (c : Client) (o : Oracle) :
    Except GoError (List (String × Setting)) × List Request :=
  let d := doRequest c o 0 "GET" "/settings" none
  (match d.1 with
   | .error e => .error e
   | .ok (st, body) =>
     if st ≠ 200 then .error (.base ("unexpected status code: " ++ intToString st))
     else
       match settingListFromJson body with
       | .ok items => .ok ((items.getD []).foldl upsertSetting [])
       | .error m => .error (.wrap "failed to decode response" (.base m)),
   [d.2])

/-- Embedding of `settingsClient.Get` (`pkg/client/settings.go`). -/
def settingsGet (c : Client) (o : Oracle) (name : String) :
    Except GoError Setting × List Request :=
  let d := doRequest c o 0 "GET" ("/settings/" ++ name) none
  (match d.1 with
   | .error e => .error e
   | .ok (st, body) =>
     if st = 404 then .error (.base ("setting " ++ name ++ " not found"))
     else if st ≠ 200 then .error (.base ("unexpected status code: " ++ intToString st))
     else
       match settingFromJson body with
       | .ok setting => .ok setting
       | .error m => .error (.wrap "failed to decode response" (.base m)),
   [d.2])

/-- Embedding of `settingsClient.Update` (`pkg/client/settings.go`). -/
def settingsUpdate (c : Client) (o : Oracle) (name value : String) :
    Except GoError Setting × List Request :=
  let d := doRequest c o 0 "PUT" ("/settings/" ++ name) (some (.obj [("value", .str value)]))
  (match d.1 with
   | .error e => .error e
   | .ok (st, body) =>
     if st ≠ 200 then .error (.base ("unexpected status code: " ++ intToString st))
     else
       match settingFromJson body with
       | .ok setting => .ok setting
       | .error m => .error (.wrap "failed to decode response" (.base m)),
   [d.2])

end client

/-! ## Further DTO structs and decoders: engine images, backups, updates -/

namespace client

/-- Embedding of the `EngineImage` struct of `pkg/client/types.go`. -/
structure EngineImage where
  Name : String
  Image : String
  Default : Bool
  State : String
  RefCount : Int
  Created : String
  NodeDeploymentMap : Option (List (String × Bool))
  Conditions : Option (List (String × Status))
deriving Inhabited, DecidableEq

/-- Embedding of the `Backup` struct of `pkg/client/types.go`. -/
structure Backup where
  Name : String
  State : String
  Progress : Int
  Error : String
  URL : String
  SnapshotName : String
  SnapshotCreated : String
  Created : String
  Size : String
  Labels : Option (List (String × String))
  VolumeName : String
  VolumeSize : String
  VolumeCreated : String
deriving Inhabited, DecidableEq

/-- Marshaling of `EngineImage` per its `json` tags. -/
def engineImageToJson (ei : EngineImage) : Json :=
  .obj [("name", .str ei.Name), ("image", .str ei.Image), ("default", .bool ei.Default),
        ("state", .str ei.State), ("refCount", .num ei.RefCount),
        ("created", .str ei.Created),
        ("nodeDeploymentMap", optMapJson Json.bool ei.NodeDeploymentMap),
        ("conditions", optMapJson statusToJson ei.Conditions)]

/-- Marshaling of `Backup` per its `json` tags. -/
def backupToJson (b : Backup) : Json :=
  .obj [("name", .str b.Name), ("state", .str b.State), ("progress", .num b.Progress),
        ("error", .str b.Error), ("url", .str b.URL),
        ("snapshotName", .str b.SnapshotName), ("snapshotCreated", .str b.SnapshotCreated),
        ("created", .str b.Created), ("size", .str b.Size),
        ("labels", optMapJson Json.str b.Labels),
        ("volumeName", .str b.VolumeName), ("volumeSize", .str b.VolumeSize),
        ("volumeCreated", .str b.VolumeCreated)]

/-- Decode a JSON value into a Go `*bool` (`null` and a missing key
leave the pointer `nil`). -/
def decOptBoolJson : Json → Except String (Option Bool)
  | .null => .ok none
  | .bool b => .ok (some b)
  | _ => .error "cannot unmarshal into bool pointer"

/-- Unmarshaling of `EngineImage`. -/
def engineImageFromJson : Json → Except String EngineImage
  | .null => .ok default
  | .obj fields => do
    let nm ← decField decStrJson fields "name"
    let im ← decField decStrJson fields "image"
    let df ← decField decBoolJson fields "default"
    let st ← decField decStrJson fields "state"
    let rc ← decField decIntJson fields "refCount"
    let cr ← decField decStrJson fields "created"
    let nd ← decField (decOptMapJson decBoolJson) fields "nodeDeploymentMap"
    let conds ← decField (decOptMapJson statusFromJson) fields "conditions"
    return ⟨nm, im, df, st, rc, cr, nd, conds⟩
  | _ => .error "cannot unmarshal into EngineImage"

/-- Unmarshaling of `Backup`. -/
def backupFromJson : Json → Except String Backup
  | .null => .ok default
  | .obj fields => do
    let nm ← decField decStrJson fields "name"
    let st ← decField decStrJson fields "state"
    let pg ← decField decIntJson fields "progress"
    let er ← decField decStrJson fields "error"
    let url ← decField decStrJson fields "url"
    let sn ← decField decStrJson fields "snapshotName"
    let sc ← decField decStrJson fields "snapshotCreated"
    let cr ← decField decStrJson fields "created"
    let sz ← decField decStrJson fields "size"
    let lb ← decField (decOptMapJson decStrJson) fields "labels"
    let vn ← decField decStrJson fields "volumeName"
    let vs ← decField decStrJson fields "volumeSize"
    let vc ← decField decStrJson fields "volumeCreated"
    return ⟨nm, st, pg, er, url, sn, sc, cr, sz, lb, vn, vs, vc⟩
  | _ => .error "cannot unmarshal into Backup"

/-- Unmarshaling of `DiskUpdate`. -/
def diskUpdateFromJson : Json → Except String DiskUpdate
  | .null => .ok default
  | .obj fields => do
    let p ← decField decStrJson fields "path"
    let aS ← decField decOptBoolJson fields "allowScheduling"
    let eR ← decField decOptBoolJson fields "evictionRequested"
    let sR ← decField decIntJson fields "storageReserved"
    let tags ← decField (decOptListJson decStrJson) fields "tags"
    return ⟨p, aS, eR, sR, tags⟩
  | _ => .error "cannot unmarshal into DiskUpdate"

/-- Unmarshaling of `NodeUpdate`. -/
def nodeUpdateFromJson : Json → Except String NodeUpdate
  | .null => .ok default
  | .obj fields => do
    let aS ← decField decOptBoolJson fields "allowScheduling"
    let eR ← decField decOptBoolJson fields "evictionRequested"
    let tags ← decField (decOptListJson decStrJson) fields "tags"
    let disks ← decField (decOptMapJson diskUpdateFromJson) fields "disks"
    return ⟨aS, eR, tags, disks⟩
  | _ => .error "cannot unmarshal into NodeUpdate"

end client

/-! ## pkg/client/engine_image.go — engine image operations -/

namespace client

/-- Decoder for the anonymous response struct
`struct{ Data []EngineImage }` of `engineImageClient.List`. -/
def engineImageListFromJson : Json → Except String (Option (List EngineImage))
  | .null => .ok none
  | .obj fields => decField (decOptListJson engineImageFromJson) fields "data"
  | _ => .error "cannot unmarshal into engine image list response"

/-- Embedding of `engineImageClient.List` (`pkg/client/engine_image.go`). -/
def engineImageList (c : Client) (o : Oracle) :
    Except GoError (Option (List EngineImage)) × List Request :=
  let d := doRequest c o 0 "GET" "/engineimages" none
  (match d.1 with
   | .error e => .error e
   | .ok (st, body) =>
     if st ≠ 200 then .error (.base ("unexpected status code: " ++ intToString st))
     else
       match engineImageListFromJson body with
       | .ok items => .ok items
       | .error m => .error (.wrap "failed to decode response" (.base m)),
   [d.2])

/-- Embedding of `engineImageClient.Get` (`pkg/client/engine_image.go`). -/
def engineImageGet (c : Client) (o : Oracle) (name : String) :
    Except GoError EngineImage × List Request :=
  let d := doRequest c o 0 "GET" ("/engineimages/" ++ name) none
  (match d.1 with
   | .error e => .error e
   | .ok (st, body) =>
     if st = 404 then .error (.base ("engine image " ++ name ++ " not found"))
     else if st ≠ 200 then .error (.base ("unexpected status code: " ++ intToString st))
     else
       match engineImageFromJson body with
       | .ok ei => .ok ei
       | .error m => .error (.wrap "failed to decode response" (.base m)),
   [d.2])

/-- Embedding of `engineImageClient.Delete` (`pkg/client/engine_image.go`). -/
def engineImageDelete (c : Client) (o : Oracle) (name : String) :
    Except GoError Unit × List Request :=
  let d := doRequest c o 0 "DELETE" ("/engineimages/" ++ name) none
  (match d.1 with
   | .error e => .error e
   | .ok (st, _) =>
     if st = 200 ∨ st = 204 then .ok ()
     else .error (.base ("unexpected status code: " ++ intToString st)),
   [d.2])

end client

/-! ## Request traces of the client operations -/
namespace client

/-- One invocation of a client operation, with its arguments — the unit
of the request-count claims. -/
inductive ClientOp where
  | nodeList
  | nodeGet (name : String)
  | nodeUpdate (name : String) (update : NodeUpdate)
  | enableScheduling (name : String)
  | disableScheduling (name : String)
  | evictNode (name : String)
  | addDisk (nodeName : String) (disk : DiskUpdate)
  | removeDisk (nodeName diskID : String)
  | updateDiskTags (nodeName diskID : String) (tags : Option (List String))
  | enableDiskScheduling (nodeName diskID : String)
  | disableDiskScheduling (nodeName diskID : String)
  | addNodeTag (nodeName tag : String)
  | removeNodeTag (nodeName tag : String)
  | settingsList
  | settingsGet (name : String)
  | settingsUpdate (name value : String)
  | engineImageList
  | engineImageGet (name : String)
  | engineImageDelete (name : String)

/-- The requests a client operation issues against the manager, in
order. -/
def opTrace (c : Client) (o : Oracle) : ClientOp → List Request
  | .nodeList => (nodeList c o).2
  | .nodeGet name => (nodeGet c o 0 name).2
  | .nodeUpdate name update => (nodeUpdate c o 0 name update).2
  | .enableScheduling name => (enableScheduling c o name).2
  | .disableScheduling name => (disableScheduling c o name).2
  | .evictNode name => (evictNode c o name).2
  | .addDisk nodeName disk => (addDisk c o nodeName disk).2
  | .removeDisk nodeName diskID => (removeDisk c o nodeName diskID).2
  | .updateDiskTags nodeName diskID tags => (updateDiskTags c o nodeName diskID tags).2
  | .enableDiskScheduling nodeName diskID => (enableDiskScheduling c o nodeName diskID).2
  | .disableDiskScheduling nodeName diskID => (disableDiskScheduling c o nodeName diskID).2
  | .addNodeTag nodeName tag => (addNodeTag c o nodeName tag).2
  | .removeNodeTag nodeName tag => (removeNodeTag c o nodeName tag).2
  | .settingsList => (settingsList c o).2
  | .settingsGet name => (settingsGet c o name).2
  | .settingsUpdate name value => (settingsUpdate c o name value).2
  | .engineImageList => (engineImageList c o).2
  | .engineImageGet name => (engineImageGet c o name).2
  | .engineImageDelete name => (engineImageDelete c o name).2

/-- The trace discipline of the client: at most three requests per
invocation, no request ever repeated (a failed request is never
retried), and every request aimed at a path under the client's base
URL. -/
def tracesOk (c : Client) (t : List Request) : Prop :=
  t.length ≤ 3 ∧ t.Pairwise (fun r1 r2 => r1 ≠ r2) ∧ ∀ r ∈ t, ∃ p, r.url = c.baseURL ++ p

end client

/-- Model of `main` (`main.go`) together with cobra's default error
reporting: when a command's `RunE` returns an error, `rootCmd.Execute`
prints `Error: <err>` on standard error (the root command never sets
`SilenceErrors`) and `main` calls `os.Exit(1)`; on success nothing is
printed and the process exits 0.  The usage text cobra also prints is
omitted from the model. -/
def mainRun (result : Option client.GoError) : ℕ × List String :=
  match result with
  | none => (0, [])
  | some e => (1, ["Error: " ++ e.render])

namespace client

/-- Concrete client used by the witnesses: the result of `NewClient` on
endpoint `http://mgr/` with a 30-second timeout. -/
def exClient : Client :=
  { config := { Endpoint := "http://mgr", Namespace := "", Token := "",
                Timeout := 30000000000, Insecure := false },
    httpTimeout := 30000000000, baseURL := "http://mgr/v1" }

/-- Concrete client configuration with a trailing slash on the
endpoint, used by the witnesses. -/
def exConfigSlash : Config :=
  { Endpoint := "http://mgr/", Namespace := "", Token := "",
    Timeout := 30000000000, Insecure := false }

/-- Concrete node without tags, used by the witnesses. -/
def exNode : Node :=
  { Name := "node-1", Namespace := "", Address := "10.0.0.1", AllowScheduling := true,
    EvictionRequested := false, Conditions := none, Disks := none, Region := "", Zone := "",
    Tags := none, EngineManagerCPURequest := 0, ReplicaManagerCPURequest := 0 }

/-- Oracle answering every request with status 200 and the marshaled
`exNode`, used by the witnesses. -/
def exOracle : Oracle := fun _ => .resp 200 (nodeToJson exNode)

/-- Oracle answering every request with a transport failure, used by
the witnesses. -/
def exOracleFail : Oracle := fun _ => .fail "connection refused"

end client

/-! ## Helper lemmas about the string model -/
theorem goStrLen_append (s t : String) : goStrLen (s ++ t) = goStrLen s + goStrLen t := by
  simp [goStrLen, String.data_append]

theorem goStrLen_spacesStr (k : ℕ) : goStrLen (formatter.spacesStr k) = k := by
  have h : (' ' : Char).utf8Size = 1 := rfl
  simp [goStrLen, formatter.spacesStr, List.map_replicate, List.sum_replicate, h]

theorem append_spacesStr_zero (s : String) : s ++ formatter.spacesStr 0 = s := by
  cases s with
  | mk data =>
    show String.mk (data ++ []) = String.mk data
    simp

theorem spacesStr_zero_append (s : String) : formatter.spacesStr 0 ++ s = s := by
  cases s with
  | mk data =>
    show String.mk ([] ++ data) = String.mk data
    simp

/-! ## Claim C7: padding alignment, and claim C5: formatter selection -/
/-- Claim C7: for every string `s` and every width `n`, `PadRight s n` and
`PadLeft s n` have length exactly `max (len s) n`, `PadRight`'s result is
`s` with only spaces appended, and `PadLeft`'s result is `s` with only
spaces prepended. -/
theorem padRight_padLeft_alignment (s : String) (n : Int) :
    (goStrLen (formatter.PadRight s n) : Int) = max (goStrLen s : Int) n ∧
    (∃ k, formatter.PadRight s n = s ++ formatter.spacesStr k) ∧
    (goStrLen (formatter.PadLeft s n) : Int) = max (goStrLen s : Int) n ∧
    (∃ k, formatter.PadLeft s n = formatter.spacesStr k ++ s) := by
  unfold formatter.PadRight formatter.PadLeft
  by_cases h : (goStrLen s : Int) ≥ n
  · rw [if_pos h, if_pos h]
    refine ⟨?_, ⟨0, (append_spacesStr_zero s).symm⟩, ?_, ⟨0, (spacesStr_zero_append s).symm⟩⟩ <;>
      omega
  · rw [if_neg h, if_neg h]
    refine ⟨?_, ⟨_, rfl⟩, ?_, ⟨_, rfl⟩⟩
    · rw [goStrLen_append, goStrLen_spacesStr]; omega
    · rw [goStrLen_append, goStrLen_spacesStr]; omega

/-- Claim C5: `GetFormatterWithHeaders` succeeds exactly on format
strings that are case-insensitively `table`, `wide`, `json` or `yaml`,
returning a table formatter for the first two, a JSON formatter and a
YAML formatter for the other two, and it errors on every other format. -/
theorem getFormatterWithHeaders_formats (format : String) (headers : List String) :
    (formatter.GetFormatterWithHeaders format headers = .ok (.table headers) ↔
      goToLowerStr format = "table" ∨ goToLowerStr format = "wide") ∧
    (formatter.GetFormatterWithHeaders format headers = .ok (.json true) ↔
      goToLowerStr format = "json") ∧
    (formatter.GetFormatterWithHeaders format headers = .ok .yaml ↔
      goToLowerStr format = "yaml") ∧
    ((∃ e, formatter.GetFormatterWithHeaders format headers = .error e) ↔
      ¬ (goToLowerStr format = "table" ∨ goToLowerStr format = "wide" ∨
         goToLowerStr format = "json" ∨ goToLowerStr format = "yaml")) := by
  unfold formatter.GetFormatterWithHeaders
  dsimp only
  split_ifs with h1 h2 h3 <;> simp_all

/-! ## List and digit-string lemmas for the size claims -/
theorem dropWhile_eq_self_of_all {p : Char → Bool} :
    ∀ {l : List Char}, (∀ c ∈ l, p c = false) → l.dropWhile p = l
  | [], _ => rfl
  | c :: t, h => by
    have hc : p c = false := h c (List.mem_cons_self c t)
    simp [List.dropWhile, hc]

theorem goTrimSpace_eq_self {cs : List Char} (h : ∀ c ∈ cs, isGoSpace c = false) :
    goTrimSpace cs = cs := by
  unfold goTrimSpace
  rw [dropWhile_eq_self_of_all h, dropWhile_eq_self_of_all, List.reverse_reverse]
  intro c hc
  exact h c (List.mem_reverse.mp hc)

theorem takeWhile_append_of_all {p : Char → Bool} :
    ∀ (xs : List Char) {y : Char} (ys : List Char), (∀ c ∈ xs, p c = true) → p y = false →
      (xs ++ y :: ys).takeWhile p = xs
  | [], y, ys, _, hy => by simp [List.takeWhile, hy]
  | x :: xs, y, ys, h, hy => by
    have hx : p x = true := h x (List.mem_cons_self x xs)
    simp only [List.cons_append, List.takeWhile, hx, List.append_eq]
    rw [takeWhile_append_of_all xs ys (fun c hc => h c (List.mem_cons_of_mem x hc)) hy]

theorem dropWhile_append_of_all {p : Char → Bool} :
    ∀ (xs : List Char) {y : Char} (ys : List Char), (∀ c ∈ xs, p c = true) → p y = false →
      (xs ++ y :: ys).dropWhile p = y :: ys
  | [], y, ys, _, hy => by simp [List.dropWhile, hy]
  | x :: xs, y, ys, h, hy => by
    have hx : p x = true := h x (List.mem_cons_self x xs)
    simp only [List.cons_append, List.dropWhile, hx, List.append_eq]
    exact dropWhile_append_of_all xs ys (fun c hc => h c (List.mem_cons_of_mem x hc)) hy

theorem utils.natDigitsAux_congr :
    ∀ (f1 f2 n : ℕ), n < f1 → n < f2 → utils.natDigitsAux f1 n = utils.natDigitsAux f2 n
  | 0, _, _, h1, _ => absurd h1 (by omega)
  | _ + 1, 0, _, _, h2 => absurd h2 (by omega)
  | f1 + 1, f2 + 1, n, h1, h2 => by
    unfold utils.natDigitsAux
    by_cases h : n < 10
    · simp [h]
    · simp only [h, if_false]
      rw [utils.natDigitsAux_congr f1 f2 (n / 10) (by omega) (by omega)]

theorem utils.natDigits_eq (n : ℕ) :
    utils.natDigits n =
      if n < 10 then [utils.digitChar n]
      else utils.natDigits (n / 10) ++ [utils.digitChar (n % 10)] := by
  unfold utils.natDigits
  conv_lhs => rw [utils.natDigitsAux]
  by_cases h : n < 10
  · simp [h]
  · simp only [h, if_false]
    rw [utils.natDigitsAux_congr n (n / 10 + 1) (n / 10) (by omega) (by omega)]

theorem utils.digitChar_toNat {d : ℕ} (h : d < 10) : (utils.digitChar d).toNat = 48 + d := by
  interval_cases d <;> rfl

theorem utils.isGoDigit_digitChar {d : ℕ} (h : d < 10) : isGoDigit (utils.digitChar d) = true := by
  interval_cases d <;> decide

theorem utils.natDigits_ne_nil (n : ℕ) : utils.natDigits n ≠ [] := by
  rw [utils.natDigits_eq]
  by_cases h : n < 10 <;> simp [h]

theorem utils.natDigits_all_digit (n : ℕ) : ∀ c ∈ utils.natDigits n, isGoDigit c = true := by
  induction n using Nat.strong_induction_on with
  | _ n ih =>
    rw [utils.natDigits_eq]
    by_cases h : n < 10
    · simp only [h, if_true]
      intro c hc
      rw [List.mem_singleton.mp hc]
      exact utils.isGoDigit_digitChar h
    · simp only [h, if_false]
      intro c hc
      rcases List.mem_append.mp hc with h1 | h2
      · exact ih (n / 10) (by omega) c h1
      · rw [List.mem_singleton.mp h2]
        exact utils.isGoDigit_digitChar (by omega)

theorem utils.digitsVal_natDigits (n : ℕ) : utils.digitsVal (utils.natDigits n) = n := by
  induction n using Nat.strong_induction_on with
  | _ n ih =>
    rw [utils.natDigits_eq]
    by_cases h : n < 10
    · simp only [h, if_true]
      show 10 * 0 + ((utils.digitChar n).toNat - 48) = n
      rw [utils.digitChar_toNat h]
      omega
    · simp only [h, if_false]
      unfold utils.digitsVal
      rw [List.foldl_append]
      show 10 * utils.digitsVal (utils.natDigits (n / 10)) + ((utils.digitChar (n % 10)).toNat - 48) = n
      rw [ih (n / 10) (by omega), utils.digitChar_toNat (by omega)]
      omega

theorem isGoSpace_of_digit {c : Char} (h : isGoDigit c = true) : isGoSpace c = false := by
  simp only [isGoDigit, Bool.and_eq_true, decide_eq_true_eq] at h
  simp only [isGoSpace, Bool.or_eq_false_iff, decide_eq_false_iff_not]
  omega

theorem goToUpperChar_of_digit {c : Char} (h : isGoDigit c = true) : goToUpperChar c = c := by
  simp only [isGoDigit, Bool.and_eq_true, decide_eq_true_eq] at h
  unfold goToUpperChar
  rw [if_neg]
  simp only [Bool.and_eq_true, decide_eq_true_eq, not_and]
  omega

theorem map_eq_self_of_all {f : Char → Char} :
    ∀ {l : List Char}, (∀ c ∈ l, f c = c) → l.map f = l
  | [], _ => rfl
  | c :: t, h => by
    have hc : f c = c := h c (List.mem_cons_self c t)
    simp only [List.map_cons, hc, List.cons.injEq, true_and]
    exact map_eq_self_of_all (fun x hx => h x (List.mem_cons_of_mem c hx))

theorem natDigits_map_toUpper (n : ℕ) :
    (utils.natDigits n).map goToUpperChar = utils.natDigits n :=
  map_eq_self_of_all (fun c hc => goToUpperChar_of_digit (utils.natDigits_all_digit n c hc))

/-! ## Evaluation of `ParseSize` and `FormatSizeInGi` on whole numbers of GiB -/
theorem utils.parseSizeCore_digits_GI (n : ℕ) :
    utils.parseSizeCore (utils.natDigits n ++ ['G', 'I']) =
      some (utils.goInt64OfFloat ((n : ℚ) * (1024 * 1024 * 1024))) := by
  have hall := utils.natDigits_all_digit n
  have htake : (utils.natDigits n ++ 'G' :: ['I']).takeWhile isGoDigit = utils.natDigits n :=
    takeWhile_append_of_all _ _ hall (by decide)
  have hdrop : (utils.natDigits n ++ 'G' :: ['I']).dropWhile isGoDigit = 'G' :: ['I'] :=
    dropWhile_append_of_all _ _ hall (by decide)
  unfold utils.parseSizeCore
  rw [htake, hdrop, if_neg (utils.natDigits_ne_nil n)]
  have hfrac : utils.fracSplit ('G' :: ['I']) = ([], ['G', 'I']) := rfl
  rw [hfrac]
  have hval : utils.ratValue (utils.natDigits n) ([], ['G', 'I']).1 = (n : ℚ) := by
    show utils.ratValue (utils.natDigits n) [] = (n : ℚ)
    unfold utils.ratValue
    rw [utils.digitsVal_natDigits]
    norm_num [utils.digitsVal]
  rw [hval]
  rfl

theorem utils.parseSizeCore_digits_dot00_GI (n : ℕ) :
    utils.parseSizeCore (utils.natDigits n ++ ['.', '0', '0', 'G', 'I']) =
      some (utils.goInt64OfFloat ((n : ℚ) * (1024 * 1024 * 1024))) := by
  have hall := utils.natDigits_all_digit n
  have htake : (utils.natDigits n ++ '.' :: ['0', '0', 'G', 'I']).takeWhile isGoDigit =
      utils.natDigits n :=
    takeWhile_append_of_all _ _ hall (by decide)
  have hdrop : (utils.natDigits n ++ '.' :: ['0', '0', 'G', 'I']).dropWhile isGoDigit =
      '.' :: ['0', '0', 'G', 'I'] :=
    dropWhile_append_of_all _ _ hall (by decide)
  unfold utils.parseSizeCore
  rw [htake, hdrop, if_neg (utils.natDigits_ne_nil n)]
  have hfrac : utils.fracSplit ('.' :: ['0', '0', 'G', 'I']) = (['0', '0'], ['G', 'I']) := rfl
  rw [hfrac]
  have hval : utils.ratValue (utils.natDigits n) (['0', '0'], ['G', 'I']).1 = (n : ℚ) := by
    show utils.ratValue (utils.natDigits n) ['0', '0'] = (n : ℚ)
    unfold utils.ratValue
    rw [utils.digitsVal_natDigits, show utils.digitsVal ['0', '0'] = 0 from rfl]
    norm_num
  rw [hval]
  rfl

theorem utils.goInt64OfFloat_gi (n : ℕ) (h : n < 2 ^ 33) :
    utils.goInt64OfFloat ((n : ℚ) * (1024 * 1024 * 1024)) = (n : ℤ) * 2 ^ 30 := by
  have hq : ((n : ℚ) * (1024 * 1024 * 1024)) = ((n * 2 ^ 30 : ℕ) : ℚ) := by push_cast; ring
  rw [hq]
  unfold utils.goInt64OfFloat
  rw [Rat.num_natCast, Rat.den_natCast, Nat.cast_one, Int.tdiv_one]
  have hlt : ((n * 2 ^ 30 : ℕ) : ℤ) < 2 ^ 63 := by
    have hn : n * 2 ^ 30 < 2 ^ 63 := by
      calc n * 2 ^ 30 < 2 ^ 33 * 2 ^ 30 :=
            (Nat.mul_lt_mul_right (show 0 < 2 ^ 30 by norm_num)).mpr h
        _ = 2 ^ 63 := by norm_num
    exact_mod_cast hn
  rw [if_pos ⟨by omega, hlt⟩]
  push_cast
  ring

theorem utils.formatSizeInGi_eval (n : ℕ) :
    utils.FormatSizeInGi ((n : ℤ) * 2 ^ 30) = ⟨utils.natDigits n ++ ['.', '0', '0', 'G', 'i']⟩ := by
  unfold utils.FormatSizeInGi utils.fmt2f
  have hq : ((((n : ℤ) * 2 ^ 30 : ℤ)) : ℚ) / (1024 * 1024 * 1024) = (n : ℚ) := by
    rw [div_eq_iff (by norm_num : (1024 * 1024 * 1024 : ℚ) ≠ 0)]
    push_cast
    ring
  rw [hq]
  have hfloor : ⌊(n : ℚ) * 100⌋ = (n : ℤ) * 100 := by
    rw [show ((n : ℚ) * 100) = ((n * 100 : ℕ) : ℚ) by push_cast; ring, Int.floor_natCast]
    push_cast
    ring
  have hm : utils.roundHalfEven ((n : ℚ) * 100) = (n : ℤ) * 100 := by
    unfold utils.roundHalfEven
    rw [hfloor, show (n : ℚ) * 100 - ((n : ℤ) * 100 : ℤ) = 0 by push_cast; ring,
      if_pos (by norm_num : (0 : ℚ) < 1 / 2)]
  rw [hm, if_neg (not_lt.mpr (by positivity : (0 : ℚ) ≤ (n : ℚ)))]
  have habs : ((n : ℤ) * 100).natAbs = n * 100 := by
    rw [show ((n : ℤ) * 100) = ((n * 100 : ℕ) : ℤ) by push_cast; ring, Int.natAbs_ofNat]
  rw [habs, show n * 100 / 100 = n by omega, show n * 100 % 100 / 10 = 0 by omega,
    show n * 100 % 10 = 0 by omega]
  simp [show utils.digitChar 0 = '0' from rfl]

theorem utils.parseSize_mk_eval (cs : List Char) (hne : cs ≠ []) (hne0 : cs ≠ ['0'])
    (hns : ∀ c ∈ cs.map goToUpperChar, isGoSpace c = false) :
    utils.ParseSize ⟨cs⟩ = utils.parseSizeCore (cs.map goToUpperChar) := by
  unfold utils.ParseSize
  rw [if_neg, goTrimSpace_eq_self hns]
  rintro (h | h)
  · exact hne (by simpa [String.ext_iff] using h)
  · exact hne0 (by simpa [String.ext_iff] using h)

theorem utils.parseSize_digits_gi (n : ℕ) :
    utils.ParseSize (utils.natToString n ++ "Gi") =
      some (utils.goInt64OfFloat ((n : ℚ) * (1024 * 1024 * 1024))) := by
  have hdigit := utils.natDigits_all_digit n
  rw [show utils.natToString n ++ "Gi" = (⟨utils.natDigits n ++ ['G', 'i']⟩ : String) from rfl]
  rw [utils.parseSize_mk_eval]
  · rw [List.map_append, natDigits_map_toUpper,
      show List.map goToUpperChar ['G', 'i'] = ['G', 'I'] from rfl,
      utils.parseSizeCore_digits_GI]
  · intro hcontra
    have := congrArg List.length hcontra
    simp [List.length_append] at this
  · intro hcontra
    have := congrArg List.length hcontra
    simp [List.length_append] at this
  · intro c hc
    rw [List.map_append, natDigits_map_toUpper,
      show List.map goToUpperChar ['G', 'i'] = ['G', 'I'] from rfl] at hc
    rcases List.mem_append.mp hc with h1 | h2
    · exact isGoSpace_of_digit (hdigit c h1)
    · simp only [List.mem_cons, List.mem_singleton] at h2
      rcases h2 with rfl | rfl | hfalse
      · decide
      · decide
      · exact absurd hfalse (List.not_mem_nil c)

theorem utils.parseSize_of_format_gi (n : ℕ) :
    utils.ParseSize (utils.FormatSizeInGi ((n : ℤ) * 2 ^ 30)) =
      some (utils.goInt64OfFloat ((n : ℚ) * (1024 * 1024 * 1024))) := by
  have hdigit := utils.natDigits_all_digit n
  rw [utils.formatSizeInGi_eval n]
  rw [utils.parseSize_mk_eval]
  · rw [List.map_append, natDigits_map_toUpper,
      show List.map goToUpperChar ['.', '0', '0', 'G', 'i'] = ['.', '0', '0', 'G', 'I'] from rfl,
      utils.parseSizeCore_digits_dot00_GI]
  · intro hcontra
    have := congrArg List.length hcontra
    simp [List.length_append] at this
  · intro hcontra
    have := congrArg List.length hcontra
    simp [List.length_append] at this
  · intro c hc
    rw [List.map_append, natDigits_map_toUpper,
      show List.map goToUpperChar ['.', '0', '0', 'G', 'i'] = ['.', '0', '0', 'G', 'I'] from
        rfl] at hc
    rcases List.mem_append.mp hc with h1 | h2
    · exact isGoSpace_of_digit (hdigit c h1)
    · simp only [List.mem_cons, List.mem_singleton] at h2
      rcases h2 with rfl | rfl | rfl | rfl | rfl | hfalse
      · decide
      · decide
      · decide
      · decide
      · decide
      · exact absurd hfalse (List.not_mem_nil c)

/-! ## Claim C1: the GiB round-trip of `ParseSize` and `FormatSizeInGi` -/
/-- Claim C1, amended with the bound `n < 2^33` (for larger `n` the byte
count `n * 2^30` does not fit in `int64` and the float-to-integer
conversion in `ParseSize` overflows): for every `n < 2^33`, `ParseSize`
maps the decimal string of `n` followed by `Gi` to exactly `n * 2^30`
bytes with no error, `FormatSizeInGi` renders that byte count as the
decimal string of `n` followed by `.00Gi`, and `ParseSize` maps that
rendering back to the same byte count. -/
theorem utils_parseSize_roundTrip_gi (n : ℕ) (h : n < 2 ^ 33) :
    utils.ParseSize (utils.natToString n ++ "Gi") = some ((n : ℤ) * 2 ^ 30) ∧
    utils.FormatSizeInGi ((n : ℤ) * 2 ^ 30) = utils.natToString n ++ ".00Gi" ∧
    utils.ParseSize (utils.FormatSizeInGi ((n : ℤ) * 2 ^ 30)) = some ((n : ℤ) * 2 ^ 30) := by
  refine ⟨?_, ?_, ?_⟩
  · rw [utils.parseSize_digits_gi, utils.goInt64OfFloat_gi n h]
  · rw [utils.formatSizeInGi_eval n]
    rfl
  · rw [utils.parseSize_of_format_gi, utils.goInt64OfFloat_gi n h]

/-- Witness for claim C1's amended theorem at the concrete input 10 GiB. -/
theorem utils_parseSize_roundTrip_gi_witness :
    (10 : ℕ) < 2 ^ 33 ∧
    (utils.ParseSize (utils.natToString 10 ++ "Gi") = some ((10 : ℤ) * 2 ^ 30) ∧
     utils.FormatSizeInGi ((10 : ℤ) * 2 ^ 30) = utils.natToString 10 ++ ".00Gi" ∧
     utils.ParseSize (utils.FormatSizeInGi ((10 : ℤ) * 2 ^ 30)) = some ((10 : ℤ) * 2 ^ 30)) :=
  ⟨by norm_num, utils_parseSize_roundTrip_gi 10 (by norm_num)⟩

/-- Counterexample to claim C1 as stated: at `n = 2^33`, the value
`n * 2^30 = 2^63` is not representable in `int64`, the conversion in
`ParseSize` overflows (the gc compiler yields `math.MinInt64`), and
`ParseSize` of `8589934592Gi` does not return `8589934592 * 2^30`. -/
theorem utils_parseSize_roundTrip_counterexample :
    utils.ParseSize (utils.natToString 8589934592 ++ "Gi") ≠ some ((8589934592 : ℤ) * 2 ^ 30) := by
  have h1 := utils.parseSize_digits_gi 8589934592
  have hq : ((8589934592 : ℕ) : ℚ) * (1024 * 1024 * 1024) = ((2 ^ 63 : ℕ) : ℚ) := by
    norm_num
  have h2 : utils.goInt64OfFloat (((8589934592 : ℕ) : ℚ) * (1024 * 1024 * 1024)) = -(2 ^ 63) := by
    unfold utils.goInt64OfFloat
    rw [hq, Rat.num_natCast, Rat.den_natCast, Nat.cast_one, Int.tdiv_one, if_neg]
    intro hcontra
    have h3 := hcontra.2
    rw [show ((2 ^ 63 : ℕ) : ℤ) = 2 ^ 63 by norm_num] at h3
    omega
  rw [h1, h2]
  intro hcontra
  have := Option.some.inj hcontra
  norm_num at this

/-! ## Claim C6: context lookup -/
theorem config.findContext_eq_some_iff {l : List config.Context} {n : String}
    {ctx : config.Context} :
    config.findContext l n = some ctx ↔
      ∃ pre post, l = pre ++ ctx :: post ∧ ctx.Name = n ∧ ∀ x ∈ pre, x.Name ≠ n := by
  induction l with
  | nil =>
    simp [config.findContext]
  | cons c rest ih =>
    unfold config.findContext
    by_cases hc : c.Name = n
    · rw [if_pos hc]
      constructor
      · rintro h
        rcases Option.some.inj h with rfl
        exact ⟨[], rest, rfl, hc, by simp⟩
      · rintro ⟨pre, post, heq, hname, hpre⟩
        cases pre with
        | nil =>
          rcases (List.cons.injEq _ _ _ _).mp heq with ⟨rfl, _⟩
          rfl
        | cons p ps =>
          rcases (List.cons.injEq _ _ _ _).mp heq with ⟨rfl, _⟩
          exact absurd hc (hpre c (List.mem_cons_self c ps))
    · rw [if_neg hc]
      rw [ih]
      constructor
      · rintro ⟨pre, post, heq, hname, hpre⟩
        refine ⟨c :: pre, post, by rw [heq]; rfl, hname, ?_⟩
        intro x hx
        rcases List.mem_cons.mp hx with rfl | hx2
        · exact hc
        · exact hpre x hx2
      · rintro ⟨pre, post, heq, hname, hpre⟩
        cases pre with
        | nil =>
          rcases (List.cons.injEq _ _ _ _).mp heq with ⟨rfl, _⟩
          exact absurd hname hc
        | cons p ps =>
          rcases (List.cons.injEq _ _ _ _).mp heq with ⟨rfl, htail⟩
          exact ⟨ps, post, htail, hname, fun x hx => hpre x (List.mem_cons_of_mem _ hx)⟩

theorem config.findContext_eq_none_iff {l : List config.Context} {n : String} :
    config.findContext l n = none ↔ ∀ x ∈ l, x.Name ≠ n := by
  induction l with
  | nil => simp [config.findContext]
  | cons c rest ih =>
    unfold config.findContext
    by_cases hc : c.Name = n
    · simp [hc]
    · rw [if_neg hc, ih]
      constructor
      · intro h x hx
        rcases List.mem_cons.mp hx with rfl | hx2
        · exact hc
        · exact h x hx2
      · intro h x hx
        exact h x (List.mem_cons_of_mem c hx)

/-- Claim C6: `GetContext` with a non-empty name returns the first
context whose `Name` equals that name; with an empty name it uses
`CurrentContext` as the name; and it returns an error exactly when no
context with the effective name exists.  (The Go method does not modify
the configuration; the model is a pure function of it.) -/
theorem config_getContext_first (c : config.Config) (name : String) :
    (∀ ctx, c.GetContext name = .ok ctx ↔
      ∃ pre post, c.Contexts = pre ++ ctx :: post ∧
        ctx.Name = (if name = "" then c.CurrentContext else name) ∧
        ∀ x ∈ pre, x.Name ≠ (if name = "" then c.CurrentContext else name)) ∧
    ((∃ e, c.GetContext name = .error e) ↔
      ∀ ctx ∈ c.Contexts, ctx.Name ≠ (if name = "" then c.CurrentContext else name)) := by
  constructor
  · intro ctx
    constructor
    · intro h
      rw [config.Config.GetContext] at h
      cases hfind : config.findContext c.Contexts (if name = "" then c.CurrentContext else name) with
      | none => simp only [hfind] at h; exact absurd h (by simp)
      | some found =>
        simp only [hfind] at h
        rcases Except.ok.inj h with rfl
        exact config.findContext_eq_some_iff.mp hfind
    · intro hdecomp
      have hfind := config.findContext_eq_some_iff.mpr hdecomp
      rw [config.Config.GetContext]
      simp only [hfind]
  · constructor
    · rintro ⟨e, he⟩
      rw [config.Config.GetContext] at he
      cases hfind : config.findContext c.Contexts (if name = "" then c.CurrentContext else name) with
      | some found => simp only [hfind] at he; exact absurd he (by simp)
      | none => exact config.findContext_eq_none_iff.mp hfind
    · intro h
      have hfind := config.findContext_eq_none_iff.mpr h
      refine ⟨"context " ++ (if name = "" then c.CurrentContext else name) ++ " not found", ?_⟩
      rw [config.Config.GetContext]
      simp only [hfind]

/-! ## Claim C10: loading a missing configuration file -/
/-- Claim C10: loading configuration from a (non-empty) path whose file
does not exist returns no error and yields the smart default
configuration: a single context named `default` with namespace
`longhorn-system` and auth type `kubeconfig` whose path is `KUBECONFIG`
when set and `$HOME/.kube/config` otherwise, current-context `default`,
output format `table`, confirmation `true`, and timeout `30s`. -/
theorem config_load_missing_file (env : config.OSEnv) (path : String)
    (hpath : path ≠ "") (hmissing : env.readFile path = .notExist) :
    config.Load env path =
      .ok { Contexts := [{ Name := "default", Endpoint := "",
                           Namespace := "longhorn-system",
                           Auth := { Typ := "kubeconfig", Token := "",
                                     Path := if env.kubeconfigEnv ≠ "" then env.kubeconfigEnv
                                             else match env.homeDir with
                                               | .ok home => home ++ "/.kube/config"
                                               | .error _ => "",
                                     Context := "" } }],
            CurrentContext := "default",
            Defaults := { OutputFormat := "table", Confirmation := true,
                          Timeout := "30s" } } := by
  simp only [config.Load, if_neg hpath, hmissing]
  rfl

/-- Witness for claim C10 at a concrete environment and path. -/
theorem config_load_missing_file_witness :
    (("/tmp/lhcli-config.yaml" : String) ≠ "" ∧
      (config.OSEnv.mk "" (.ok "/home/user") (fun _ => .notExist)
        (fun _ => .error "unused")).readFile "/tmp/lhcli-config.yaml" = .notExist) ∧
    config.Load
      (config.OSEnv.mk "" (.ok "/home/user") (fun _ => .notExist) (fun _ => .error "unused"))
      "/tmp/lhcli-config.yaml" =
      .ok { Contexts := [{ Name := "default", Endpoint := "",
                           Namespace := "longhorn-system",
                           Auth := { Typ := "kubeconfig", Token := "",
                                     Path := if ("" : String) ≠ "" then ""
                                             else match (.ok "/home/user" : Except String String) with
                                               | .ok home => home ++ "/.kube/config"
                                               | .error _ => "",
                                     Context := "" } }],
            CurrentContext := "default",
            Defaults := { OutputFormat := "table", Confirmation := true,
                          Timeout := "30s" } } :=
  ⟨⟨by decide, rfl⟩,
    config_load_missing_file
      (config.OSEnv.mk "" (.ok "/home/user") (fun _ => .notExist) (fun _ => .error "unused"))
      "/tmp/lhcli-config.yaml" (by decide) rfl⟩

/-! ### Encode-decode identities for the DTO structs -/
theorem client.exceptMapM_map_ok {α : Type} (f : α → Json) (g : Json → Except String α)
    (hfg : ∀ a, g (f a) = .ok a) : ∀ l : List α, List.mapM g (l.map f) = Except.ok l := by
  intro l
  rw [← List.mapM'_eq_mapM]
  induction l with
  | nil => rfl
  | cons a t ih => simp [List.mapM'_cons, hfg, ih, Bind.bind, Except.bind, pure, Except.pure]

theorem client.exceptMapM_pairs_ok {α : Type} (f : α → Json) (g : Json → Except String α)
    (hfg : ∀ a, g (f a) = .ok a) :
    ∀ l : List (String × α),
      List.mapM (client.decPairJson g) (l.map (fun p => (p.1, f p.2))) = Except.ok l := by
  intro l
  rw [← List.mapM'_eq_mapM]
  induction l with
  | nil => rfl
  | cons a t ih =>
    simp [List.mapM'_cons, client.decPairJson, hfg, ih, Bind.bind, Except.bind, Except.map,
      pure, Except.pure]

theorem client.exceptMapM_loop_map_ok {α : Type} (f : α → Json) (g : Json → Except String α)
    (hfg : ∀ a, g (f a) = .ok a) (l : List α) :
    List.mapM.loop g (l.map f) [] = Except.ok l :=
  client.exceptMapM_map_ok f g hfg l

theorem client.exceptMapM_loop_pairs_ok {α : Type} (f : α → Json) (g : Json → Except String α)
    (hfg : ∀ a, g (f a) = .ok a) (l : List (String × α)) :
    List.mapM.loop (client.decPairJson g) (l.map (fun p => (p.1, f p.2))) [] = Except.ok l :=
  client.exceptMapM_pairs_ok f g hfg l

theorem client.decStrJson_str (s : String) : client.decStrJson (.str s) = .ok s := rfl

theorem client.decStrJson_null : client.decStrJson .null = .ok "" := rfl

theorem client.decBoolJson_bool (b : Bool) : client.decBoolJson (.bool b) = .ok b := rfl

theorem client.decIntJson_num (n : Int) : client.decIntJson (.num n) = .ok n := rfl

theorem client.statusFromJson_toJson (s : client.Status) :
    client.statusFromJson (client.statusToJson s) = .ok s := by
  obtain ⟨a, b, c, d, e, f⟩ := s
  rfl

theorem client.diskFromJson_toJson (d : client.Disk) :
    client.diskFromJson (client.diskToJson d) = .ok d := by
  obtain ⟨p, aS, eR, sM, sA, sR, sS, dU, dT, conds, sched, tags⟩ := d
  cases conds <;> cases sched <;> cases tags <;>
    simp [client.diskToJson, client.diskFromJson, client.decField, client.jLookup,
      client.decOptMapJson, client.decOptListJson, client.optMapJson, client.optListJson,
      client.decStrJson_str, client.decStrJson_null, client.decBoolJson_bool,
      client.decIntJson_num, Bind.bind, Except.bind, Except.map, pure, Except.pure,
      client.exceptMapM_loop_pairs_ok _ _ client.statusFromJson_toJson,
      client.exceptMapM_loop_pairs_ok _ _ client.decIntJson_num,
      client.exceptMapM_loop_map_ok _ _ client.decStrJson_str]

theorem client.nodeFromJson_toJson (n : client.Node) :
    client.nodeFromJson (client.nodeToJson n) = .ok n := by
  obtain ⟨nm, ns, ad, aS, eR, conds, disks, rg, zn, tags, em, rm⟩ := n
  have hdisk := client.diskFromJson_toJson
  by_cases hns : ns = "" <;>
    cases conds <;> cases disks <;> cases tags <;>
      simp +decide [hns, client.nodeToJson, client.nodeFromJson, client.decField,
        client.jLookup, client.decOptMapJson, client.decOptListJson, client.optMapJson,
        client.optListJson, client.eqFold, goToLowerStr, goToLowerChar,
        client.decStrJson_str, client.decStrJson_null, client.decBoolJson_bool,
        client.decIntJson_num, Bind.bind, Except.bind, Except.map, pure, Except.pure,
        client.exceptMapM_loop_pairs_ok _ _ client.statusFromJson_toJson,
        client.exceptMapM_loop_pairs_ok _ _ hdisk,
        client.exceptMapM_loop_map_ok _ _ client.decStrJson_str]

theorem client.settingDefinitionFromJson_toJson (sd : client.SettingDefinition) :
    client.settingDefinitionFromJson (client.settingDefinitionToJson sd) = .ok sd := by
  obtain ⟨de, t, rq, ro, df, op⟩ := sd
  cases op <;>
    simp [client.settingDefinitionToJson, client.settingDefinitionFromJson, client.decField,
      client.jLookup, client.decOptListJson, client.optListJson,
      client.decStrJson_str, client.decStrJson_null, client.decBoolJson_bool,
      Bind.bind, Except.bind, Except.map, pure, Except.pure,
      client.exceptMapM_loop_map_ok _ _ client.decStrJson_str]

theorem client.settingFromJson_toJson (s : client.Setting) :
    client.settingFromJson (client.settingToJson s) = .ok s := by
  obtain ⟨nm, v, df, defn⟩ := s
  simp [client.settingToJson, client.settingFromJson, client.decField, client.jLookup,
    client.settingDefinitionFromJson_toJson, Bind.bind, Except.bind, pure, Except.pure,
    client.decStrJson_str]

theorem client.engineImageFromJson_toJson (ei : client.EngineImage) :
    client.engineImageFromJson (client.engineImageToJson ei) = .ok ei := by
  obtain ⟨nm, im, df, st, rc, cr, nd, conds⟩ := ei
  cases nd <;> cases conds <;>
    simp [client.engineImageToJson, client.engineImageFromJson, client.decField,
      client.jLookup, client.decOptMapJson, client.optMapJson,
      client.decStrJson_str, client.decStrJson_null, client.decBoolJson_bool,
      client.decIntJson_num, Bind.bind, Except.bind, Except.map, pure, Except.pure,
      client.exceptMapM_loop_pairs_ok _ _ client.statusFromJson_toJson,
      client.exceptMapM_loop_pairs_ok _ _ client.decBoolJson_bool]

theorem client.backupFromJson_toJson (b : client.Backup) :
    client.backupFromJson (client.backupToJson b) = .ok b := by
  obtain ⟨nm, st, pg, er, url, sn, sc, cr, sz, lb, vn, vs, vc⟩ := b
  cases lb <;>
    simp [client.backupToJson, client.backupFromJson, client.decField, client.jLookup,
      client.decOptMapJson, client.optMapJson,
      client.decStrJson_str, client.decStrJson_null, client.decIntJson_num,
      Bind.bind, Except.bind, Except.map, pure, Except.pure,
      client.exceptMapM_loop_pairs_ok _ _ client.decStrJson_str]

/-- Claim C8, amended: encoding a DTO value with `JSONFormatter.Format`
and decoding the emitted JSON back into the same struct type yields the
original value for the response DTO structs, whose slice and map fields
carry no `omitempty` — proved here for `Node` (with its nested `Disk`
and `Status` values), `Setting`, `SettingDefinition`, `EngineImage` and
`Backup`; for the update DTO structs, whose collection fields carry
`omitempty`, an empty non-nil collection is dropped by the encoder and
decodes back as `nil`. -/
theorem jsonFormatter_encode_decode_id :
    (∀ n : client.Node,
      client.nodeFromJson ((formatter.JSONFormatter.mk true).formatOutput (client.nodeToJson n)) =
        .ok n) ∧
    (∀ d : client.Disk,
      client.diskFromJson ((formatter.JSONFormatter.mk true).formatOutput (client.diskToJson d)) =
        .ok d) ∧
    (∀ s : client.Status,
      client.statusFromJson
          ((formatter.JSONFormatter.mk true).formatOutput (client.statusToJson s)) = .ok s) ∧
    (∀ s : client.Setting,
      client.settingFromJson
          ((formatter.JSONFormatter.mk true).formatOutput (client.settingToJson s)) = .ok s) ∧
    (∀ sd : client.SettingDefinition,
      client.settingDefinitionFromJson
          ((formatter.JSONFormatter.mk true).formatOutput
            (client.settingDefinitionToJson sd)) = .ok sd) ∧
    (∀ ei : client.EngineImage,
      client.engineImageFromJson
          ((formatter.JSONFormatter.mk true).formatOutput (client.engineImageToJson ei)) =
        .ok ei) ∧
    (∀ b : client.Backup,
      client.backupFromJson
          ((formatter.JSONFormatter.mk true).formatOutput (client.backupToJson b)) = .ok b) :=
  ⟨client.nodeFromJson_toJson, client.diskFromJson_toJson, client.statusFromJson_toJson,
    client.settingFromJson_toJson, client.settingDefinitionFromJson_toJson,
    client.engineImageFromJson_toJson, client.backupFromJson_toJson⟩

/-- Counterexample to claim C8 as stated: the DTO struct `NodeUpdate`
marks its `tags` slice `omitempty`, so a `NodeUpdate` whose `Tags` is
the empty non-nil slice is encoded without a `tags` key and decodes
back with a `nil` slice — a value not equal to the original. -/
theorem jsonFormatter_nodeUpdate_counterexample :
    ¬ (client.nodeUpdateFromJson
        ((formatter.JSONFormatter.mk true).formatOutput
          (client.nodeUpdateToJson
            { AllowScheduling := none, EvictionRequested := none,
              Tags := some [], Disks := none })) =
      .ok { AllowScheduling := none, EvictionRequested := none,
            Tags := some [], Disks := none }) := by
  intro h
  rw [show client.nodeUpdateFromJson
        ((formatter.JSONFormatter.mk true).formatOutput
          (client.nodeUpdateToJson
            { AllowScheduling := none, EvictionRequested := none,
              Tags := some [], Disks := none })) =
      .ok { AllowScheduling := none, EvictionRequested := none,
            Tags := none, Disks := none } from rfl] at h
  exact absurd (Except.ok.inj h) (by decide)

theorem client.tracesOk_one (c : client.Client) (m p : String) (b : Option Json) :
    client.tracesOk c [{ method := m, url := c.baseURL ++ p, body := b }] := by
  refine ⟨by simp, by simp, ?_⟩
  intro r hr
  rw [List.mem_singleton] at hr
  subst hr
  exact ⟨p, rfl⟩

theorem client.tracesOk_two (c : client.Client) (m1 p1 : String) (b1 : Option Json)
    (m2 p2 : String) (b2 : Option Json) (hne : m1 ≠ m2) :
    client.tracesOk c
      [{ method := m1, url := c.baseURL ++ p1, body := b1 },
       { method := m2, url := c.baseURL ++ p2, body := b2 }] := by
  refine ⟨by simp, ?_, ?_⟩
  · refine List.pairwise_cons.mpr ⟨?_, by simp⟩
    intro r hr
    rw [List.mem_singleton] at hr
    subst hr
    intro he
    exact hne (congrArg client.Request.method he)
  · intro r hr
    rcases List.mem_cons.mp hr with rfl | hr2
    · exact ⟨p1, rfl⟩
    · rw [List.mem_singleton] at hr2
      subst hr2
      exact ⟨p2, rfl⟩

theorem client.tracesOk_three (c : client.Client) (m1 p1 : String) (b1 : Option Json)
    (m2 p2 : String) (b2 : Option Json) (m3 p3 : String) (b3 : Option Json)
    (h12 : m1 ≠ m2) (h13 : m1 ≠ m3) (h23 : m2 ≠ m3) :
    client.tracesOk c
      [{ method := m1, url := c.baseURL ++ p1, body := b1 },
       { method := m2, url := c.baseURL ++ p2, body := b2 },
       { method := m3, url := c.baseURL ++ p3, body := b3 }] := by
  refine ⟨by simp, ?_, ?_⟩
  · refine List.pairwise_cons.mpr ⟨?_, List.pairwise_cons.mpr ⟨?_, by simp⟩⟩
    · intro r hr
      rcases List.mem_cons.mp hr with rfl | hr2
      · exact fun he => h12 (congrArg client.Request.method he)
      · rw [List.mem_singleton] at hr2
        subst hr2
        exact fun he => h13 (congrArg client.Request.method he)
    · intro r hr
      rw [List.mem_singleton] at hr
      subst hr
      exact fun he => h23 (congrArg client.Request.method he)
  · intro r hr
    rcases List.mem_cons.mp hr with rfl | hr2
    · exact ⟨p1, rfl⟩
    · rcases List.mem_cons.mp hr2 with rfl | hr3
      · exact ⟨p2, rfl⟩
      · rw [List.mem_singleton] at hr3
        subst hr3
        exact ⟨p3, rfl⟩

theorem client.updateDiskScheduling_trace_ok (c : client.Client) (o : client.Oracle)
    (nodeName diskID : String) (b : Bool) :
    client.tracesOk c (client.updateDiskScheduling c o nodeName diskID b).2 := by
  cases ho : o 0 with
  | fail m =>
    simp only [client.updateDiskScheduling, client.doRequest, ho]
    exact client.tracesOk_one c "PATCH" ("/nodes/" ++ nodeName ++ "/disks/" ++ diskID) _
  | resp st body =>
    simp only [client.updateDiskScheduling, client.doRequest, ho]
    split_ifs with h1 h2
    · cases hres : (client.nodeGet c o 1 nodeName).1 with
      | error e =>
        simp only [client.updateDiskSchedulingViaNode, hres]
        exact client.tracesOk_two c "PATCH" ("/nodes/" ++ nodeName ++ "/disks/" ++ diskID) _
          "GET" ("/nodes/" ++ nodeName) none (by decide)
      | ok node =>
        simp only [client.updateDiskSchedulingViaNode, hres]
        cases hfind : (node.Disks.getD []).find? (fun p => p.1 = diskID) with
        | none =>
          simp only [hfind]
          exact client.tracesOk_two c "PATCH" ("/nodes/" ++ nodeName ++ "/disks/" ++ diskID) _
            "GET" ("/nodes/" ++ nodeName) none (by decide)
        | some disk =>
          simp only [hfind]
          exact client.tracesOk_three c "PATCH" ("/nodes/" ++ nodeName ++ "/disks/" ++ diskID) _
            "GET" ("/nodes/" ++ nodeName) none "PUT" ("/nodes/" ++ nodeName) _
            (by decide) (by decide) (by decide)
    · exact client.tracesOk_one c "PATCH" ("/nodes/" ++ nodeName ++ "/disks/" ++ diskID) _
    · exact client.tracesOk_one c "PATCH" ("/nodes/" ++ nodeName ++ "/disks/" ++ diskID) _

theorem client.opTrace_ok (c : client.Client) (o : client.Oracle) (op : client.ClientOp) :
    client.tracesOk c (client.opTrace c o op) := by
  cases op with
  | nodeList => exact client.tracesOk_one c "GET" "/nodes" none
  | nodeGet name => exact client.tracesOk_one c "GET" ("/nodes/" ++ name) none
  | nodeUpdate name update => exact client.tracesOk_one c "PUT" ("/nodes/" ++ name) _
  | enableScheduling name => exact client.tracesOk_one c "PUT" ("/nodes/" ++ name) _
  | disableScheduling name => exact client.tracesOk_one c "PUT" ("/nodes/" ++ name) _
  | evictNode name => exact client.tracesOk_one c "PUT" ("/nodes/" ++ name) _
  | addDisk nodeName disk =>
    show client.tracesOk c (client.addDisk c o nodeName disk).2
    cases hres : (client.nodeGet c o 0 nodeName).1 with
    | error e =>
      simp only [client.addDisk, hres]
      exact client.tracesOk_one c "GET" ("/nodes/" ++ nodeName) none
    | ok node =>
      simp only [client.addDisk, hres]
      split_ifs with hex
      · exact client.tracesOk_one c "GET" ("/nodes/" ++ nodeName) none
      · exact client.tracesOk_two c "GET" ("/nodes/" ++ nodeName) none
          "POST" ("/nodes/" ++ nodeName ++ "/disks") _ (by decide)
  | removeDisk nodeName diskID =>
    exact client.tracesOk_one c "DELETE" ("/nodes/" ++ nodeName ++ "/disks/" ++ diskID) none
  | updateDiskTags nodeName diskID tags =>
    exact client.tracesOk_one c "PATCH" ("/nodes/" ++ nodeName ++ "/disks/" ++ diskID) _
  | enableDiskScheduling nodeName diskID =>
    exact client.updateDiskScheduling_trace_ok c o nodeName diskID true
  | disableDiskScheduling nodeName diskID =>
    exact client.updateDiskScheduling_trace_ok c o nodeName diskID false
  | addNodeTag nodeName tag =>
    show client.tracesOk c (client.addNodeTag c o nodeName tag).2
    cases hres : (client.nodeGet c o 0 nodeName).1 with
    | error e =>
      simp only [client.addNodeTag, hres]
      exact client.tracesOk_one c "GET" ("/nodes/" ++ nodeName) none
    | ok node =>
      simp only [client.addNodeTag, hres]
      split_ifs with htag
      · exact client.tracesOk_one c "GET" ("/nodes/" ++ nodeName) none
      · exact client.tracesOk_two c "GET" ("/nodes/" ++ nodeName) none
          "PUT" ("/nodes/" ++ nodeName) _ (by decide)
  | removeNodeTag nodeName tag =>
    show client.tracesOk c (client.removeNodeTag c o nodeName tag).2
    cases hres : (client.nodeGet c o 0 nodeName).1 with
    | error e =>
      simp only [client.removeNodeTag, hres]
      exact client.tracesOk_one c "GET" ("/nodes/" ++ nodeName) none
    | ok node =>
      simp only [client.removeNodeTag, hres]
      exact client.tracesOk_two c "GET" ("/nodes/" ++ nodeName) none
        "PUT" ("/nodes/" ++ nodeName) _ (by decide)
  | settingsList => exact client.tracesOk_one c "GET" "/settings" none
  | settingsGet name => exact client.tracesOk_one c "GET" ("/settings/" ++ name) none
  | settingsUpdate name value => exact client.tracesOk_one c "PUT" ("/settings/" ++ name) _
  | engineImageList => exact client.tracesOk_one c "GET" "/engineimages" none
  | engineImageGet name => exact client.tracesOk_one c "GET" ("/engineimages/" ++ name) none
  | engineImageDelete name =>
    exact client.tracesOk_one c "DELETE" ("/engineimages/" ++ name) none

/-! ## Claim C2: request bounds, fixed timeout, and no retries -/
/-- Claim C2, amended: some client operations are read-modify-write and
issue up to three HTTP requests, so for every client operation at most
three HTTP requests are issued per invocation; the client carries the
fixed timeout configured on it, and no request is ever repeated within
an invocation — in particular a failed request is never retried. -/
theorem client_ops_bounded_requests_no_retry (cfg : client.Config) (c : client.Client)
    (h : client.NewClient cfg = .ok c) :
    c.httpTimeout = cfg.Timeout ∧
    ∀ (o : client.Oracle) (op : client.ClientOp),
      (client.opTrace c o op).length ≤ 3 ∧
      (client.opTrace c o op).Pairwise (fun r1 r2 => r1 ≠ r2) := by
  have htimeout : c.httpTimeout = cfg.Timeout := by
    by_cases he : cfg.Endpoint = ""
    · rw [client.NewClient, if_pos he] at h
      exact absurd h (by simp)
    · rw [client.NewClient, if_neg he] at h
      have h2 := Except.ok.inj h
      rw [← h2]
  exact ⟨htimeout, fun o op =>
    ⟨(client.opTrace_ok c o op).1, (client.opTrace_ok c o op).2.1⟩⟩

/-- Witness for claim C2's amended theorem at a concrete
configuration. -/
theorem client_ops_bounded_requests_no_retry_witness :
    client.NewClient client.exConfigSlash = .ok client.exClient ∧
    (client.exClient.httpTimeout = client.exConfigSlash.Timeout ∧
     ∀ (o : client.Oracle) (op : client.ClientOp),
       (client.opTrace client.exClient o op).length ≤ 3 ∧
       (client.opTrace client.exClient o op).Pairwise (fun r1 r2 => r1 ≠ r2)) :=
  ⟨rfl, client_ops_bounded_requests_no_retry client.exConfigSlash client.exClient rfl⟩

/-- Counterexample to claim C2 as stated: `AddNodeTag` on a node that
does not carry the tag issues two HTTP requests (a `GET` of the node
followed by a `PUT`), not at most one. -/
theorem client_addNodeTag_two_requests_counterexample :
    ¬ ((client.opTrace client.exClient client.exOracle (.addNodeTag "node-1" "ssd")).length ≤ 1) := by
  decide

/-! ## Claim C4: request URLs and endpoint validation -/
/-- Claim C4: `NewClient` errors exactly when the endpoint is empty;
otherwise every request the client issues goes to the URL formed by the
endpoint (with a trailing slash removed) followed by `/v1` followed by
the operation path — in particular node listing issues
`GET {endpoint}/v1/nodes` and settings listing issues
`GET {endpoint}/v1/settings`. -/
theorem client_request_urls (cfg : client.Config) :
    ((∃ e, client.NewClient cfg = .error e) ↔ cfg.Endpoint = "") ∧
    ∀ c, client.NewClient cfg = .ok c →
      c.baseURL = goTrimSuffix cfg.Endpoint "/" ++ "/v1" ∧
      (∀ o, (client.nodeList c o).2 =
        [{ method := "GET", url := c.baseURL ++ "/nodes", body := none }]) ∧
      (∀ o, (client.settingsList c o).2 =
        [{ method := "GET", url := c.baseURL ++ "/settings", body := none }]) ∧
      (∀ o op, ∀ r ∈ client.opTrace c o op, ∃ p, r.url = c.baseURL ++ p) := by
  constructor
  · constructor
    · rintro ⟨e, he⟩
      by_contra hne
      rw [client.NewClient, if_neg hne] at he
      exact absurd he (by simp)
    · intro he
      exact ⟨.base "endpoint is required", by rw [client.NewClient, if_pos he]⟩
  · intro c hc
    have hbase : c.baseURL = goTrimSuffix cfg.Endpoint "/" ++ "/v1" := by
      by_cases he : cfg.Endpoint = ""
      · rw [client.NewClient, if_pos he] at hc
        exact absurd hc (by simp)
      · rw [client.NewClient, if_neg he] at hc
        have h2 := Except.ok.inj hc
        rw [← h2]
    exact ⟨hbase, fun o => rfl, fun o => rfl,
      fun o op => (client.opTrace_ok c o op).2.2⟩

/-- Witness for claim C4 at a concrete configuration whose endpoint
carries a trailing slash. -/
theorem client_request_urls_witness :
    client.NewClient client.exConfigSlash = .ok client.exClient ∧
    (client.exClient.baseURL = goTrimSuffix client.exConfigSlash.Endpoint "/" ++ "/v1" ∧
     (∀ o, (client.nodeList client.exClient o).2 =
       [{ method := "GET", url := client.exClient.baseURL ++ "/nodes", body := none }]) ∧
     (∀ o, (client.settingsList client.exClient o).2 =
       [{ method := "GET", url := client.exClient.baseURL ++ "/settings", body := none }]) ∧
     (∀ o op, ∀ r ∈ client.opTrace client.exClient o op,
       ∃ p, r.url = client.exClient.baseURL ++ p)) :=
  ⟨rfl, (client_request_urls client.exConfigSlash).2 client.exClient rfl⟩

/-! ## Claim C9: idempotence of `AddNodeTag` at the client boundary -/
/-- Claim C9: when the manager returns a node already carrying the tag,
`AddNodeTag` returns `nil` having issued only the `GET` and no update
request; when the node does not carry the tag, it issues the `GET`
followed by exactly one `PUT` whose `tags` payload is the old list with
the tag appended exactly once. -/
theorem client_addNodeTag_idempotent (c : client.Client) (o : client.Oracle)
    (node : client.Node) (nodeName tag : String)
    (hresp : o 0 = .resp 200 (client.nodeToJson node)) :
    (tag ∈ node.Tags.getD [] →
      client.addNodeTag c o nodeName tag =
        (.ok (), [{ method := "GET", url := c.baseURL ++ ("/nodes/" ++ nodeName),
                    body := none }])) ∧
    (tag ∉ node.Tags.getD [] →
      (client.addNodeTag c o nodeName tag).2 =
        [{ method := "GET", url := c.baseURL ++ ("/nodes/" ++ nodeName), body := none },
         { method := "PUT", url := c.baseURL ++ ("/nodes/" ++ nodeName),
           body := some (client.nodeUpdateToJson
             { AllowScheduling := none, EvictionRequested := none,
               Tags := some (node.Tags.getD [] ++ [tag]), Disks := none }) }]) := by
  have hget : (client.nodeGet c o 0 nodeName).1 = .ok node := by
    simp [client.nodeGet, client.doRequest, hresp, client.nodeFromJson_toJson]
  constructor
  · intro htag
    simp only [client.addNodeTag, hget, if_pos htag]
    rfl
  · intro htag
    simp only [client.addNodeTag, hget, if_neg htag]
    rfl

/-- Witness for claim C9 at a concrete client, node and tag. -/
theorem client_addNodeTag_idempotent_witness :
    client.exOracle 0 = .resp 200 (client.nodeToJson client.exNode) ∧
    (("ssd" ∈ client.exNode.Tags.getD [] →
      client.addNodeTag client.exClient client.exOracle "node-1" "ssd" =
        (.ok (), [{ method := "GET",
                    url := client.exClient.baseURL ++ ("/nodes/" ++ "node-1"),
                    body := none }])) ∧
     ("ssd" ∉ client.exNode.Tags.getD [] →
      (client.addNodeTag client.exClient client.exOracle "node-1" "ssd").2 =
        [{ method := "GET", url := client.exClient.baseURL ++ ("/nodes/" ++ "node-1"),
           body := none },
         { method := "PUT", url := client.exClient.baseURL ++ ("/nodes/" ++ "node-1"),
           body := some (client.nodeUpdateToJson
             { AllowScheduling := none, EvictionRequested := none,
               Tags := some (client.exNode.Tags.getD [] ++ ["ssd"]), Disks := none }) }])) :=
  ⟨rfl, client_addNodeTag_idempotent client.exClient client.exOracle client.exNode
    "node-1" "ssd" rfl⟩

/-! ## Claim C3: failures are wrapped, reported on stderr, exit non-zero -/
/-- Claim C3: when the settings listing fails remotely, the client's
error is either the transport failure wrapped with context, a
contextual unexpected-status error naming the code, or the decode
failure wrapped with context; the failure propagates to `main`, is
printed to standard error as `Error: <err>`, and the process exits with
status 1. -/
theorem cli_error_reporting (c : client.Client) (o : client.Oracle) (e : client.GoError)
    (herr : (client.settingsList c o).1 = .error e) :
    ((∃ m, e = .wrap "request failed" (.base m)) ∨
     (∃ st : Int, st ≠ 200 ∧ e = .base ("unexpected status code: " ++ client.intToString st)) ∨
     (∃ m, e = .wrap "failed to decode response" (.base m))) ∧
    mainRun (some e) = (1, ["Error: " ++ e.render]) := by
  refine ⟨?_, rfl⟩
  cases ho : o 0 with
  | fail m =>
    left
    simp only [client.settingsList, client.doRequest, ho] at herr
    exact ⟨m, (Except.error.inj herr).symm⟩
  | resp st body =>
    simp only [client.settingsList, client.doRequest, ho] at herr
    by_cases hst : st = 200
    · right; right
      rw [if_neg (by simp [hst])] at herr
      cases hd : client.settingListFromJson body with
      | ok items =>
        rw [hd] at herr
        exact absurd herr (by simp)
      | error m =>
        rw [hd] at herr
        exact ⟨m, (Except.error.inj herr).symm⟩
    · right; left
      rw [if_pos hst] at herr
      exact ⟨st, hst, (Except.error.inj herr).symm⟩

/-- Witness for claim C3 at a concrete transport failure. -/
theorem cli_error_reporting_witness :
    (client.settingsList client.exClient client.exOracleFail).1 =
      .error (.wrap "request failed" (.base "connection refused")) ∧
    (((∃ m, (client.GoError.wrap "request failed" (.base "connection refused")) =
        .wrap "request failed" (.base m)) ∨
      (∃ st : Int, st ≠ 200 ∧
        (client.GoError.wrap "request failed" (.base "connection refused")) =
          .base ("unexpected status code: " ++ client.intToString st)) ∨
      (∃ m, (client.GoError.wrap "request failed" (.base "connection refused")) =
        .wrap "failed to decode response" (.base m))) ∧
     mainRun (some (.wrap "request failed" (.base "connection refused"))) =
       (1, ["Error: " ++
         (client.GoError.wrap "request failed" (.base "connection refused")).render])) :=
  ⟨rfl, cli_error_reporting client.exClient client.exOracleFail
    (.wrap "request failed" (.base "connection refused")) rfl⟩
